import Mathlib

/-!
Verification of `SignalProcessor<T, N>` (src/Inc/SignalProcessor.hpp).

The C++ class is a fixed-capacity ring buffer with online statistics,
filters and a derivative/integrator pair.  We embed it shallowly:

* the sample type `T` and all `float` fields are modelled as `ℚ`
  (exact arithmetic idealisation of the floating-point code; the float
  literals `0.1f`, `0.2f`, `0.001f`, `0.5f` become the exact rationals);
* `uint16_t` / `uint32_t` fields become `ℕ`; the unsigned 32-bit
  subtraction `timeMs - lastTimeMs_` in `add` is modelled exactly as
  `(timeMs + 2^32 - lastTimeMs_) % 2^32`;
* the C++ conversion `(int)` of a `float`/`T` value (used in the
  derivative computation) truncates toward zero and is modelled by
  `ratTrunc`;
* the template parameter `N` becomes an explicit `ℕ` argument;
* members that the constructor leaves uninitialised
  (`buffer_`, `derivativePeriodMs_`, `useEmaFilteredValueForDerivation_`)
  are modelled as parameters of `mkProcessor`: the source determines no
  value for them.
-/

namespace SignalProcessor

/-- Truncation toward zero, the semantics of the C++ cast `(int)` applied
to a floating-point value (here: to a rational). -/
def ratTrunc (q : ℚ) : ℤ := if 0 ≤ q then ⌊q⌋ else ⌈q⌉

/-- The member state of `SignalProcessor<T, N>` (source lines 39-68).
`buffer_` is modelled as a total function from slot index to value; only
slots `< N` are ever read or written. -/
structure State where
  buffer_ : ℕ → ℚ
  count_ : ℕ
  index_ : ℕ
  sum_ : ℚ
  sumSq_ : ℚ
  minVal_ : ℚ
  maxVal_ : ℚ
  needRecalcMinMax_ : Bool
  ema_ : ℚ
  lastValue_ : ℚ
  lastTimeMs_ : ℕ
  derivativePeriodMs_ : ℕ
  useEmaFilteredValueForDerivation_ : Bool
  derivative_ : ℚ
  derivativeFiltered_ : ℚ
  integrator_ : ℚ
  lastIntegrandValue_ : ℚ
  alphaEma_ : ℚ
  alphaDerivFilter_ : ℚ
  alphaLowpass_ : ℚ

/-- The constructor `SignalProcessor()` (source lines 96-105).  The fields
`buffer_`, `derivativePeriodMs_` and `useEmaFilteredValueForDerivation_`
are absent from the initializer list, so they start indeterminate; they are
taken as parameters. -/
def mkProcessor (junkBuffer : ℕ → ℚ) (junkPeriod : ℕ) (junkUse : Bool) : State :=
  { buffer_ := junkBuffer
    count_ := 0
    index_ := 0
    sum_ := 0
    sumSq_ := 0
    minVal_ := 0
    maxVal_ := 0
    needRecalcMinMax_ := false
    ema_ := 0
    lastValue_ := 0
    lastTimeMs_ := 0
    derivativePeriodMs_ := junkPeriod
    useEmaFilteredValueForDerivation_ := junkUse
    derivative_ := 0
    derivativeFiltered_ := 0
    integrator_ := 0
    lastIntegrandValue_ := 0
    alphaEma_ := 1 / 10
    alphaDerivFilter_ := 1 / 5
    alphaLowpass_ := 1 / 10 }

/-- Coefficient clamping used by all three alpha setters (source lines
115-117, 133-135, 141-143): `(alpha < 0) ? 0 : (alpha > 1) ? 1 : alpha`. -/
def clampAlpha (alpha : ℚ) : ℚ := if alpha < 0 then 0 else if 1 < alpha then 1 else alpha

/-- `setEmaAlpha` (source lines 115-117). -/
def setEmaAlpha (st : State) (alpha : ℚ) : State := { st with alphaEma_ := clampAlpha alpha }

/-- `setDerivativePeriodMs` (source lines 119-122). -/
def setDerivativePeriodMs (st : State) (period : ℕ) : State :=
  { st with derivativePeriodMs_ := period }

/-- `setIsEmaUseForDerivative` (source lines 124-127). -/
def setIsEmaUseForDerivative (st : State) (isEmaUse : Bool) : State :=
  { st with useEmaFilteredValueForDerivation_ := isEmaUse }

/-- `setDerivativeFilterAlpha` (source lines 133-135). -/
def setDerivativeFilterAlpha (st : State) (alpha : ℚ) : State :=
  { st with alphaDerivFilter_ := clampAlpha alpha }

/-- `setLowpassAlpha` (source lines 141-143). -/
def setLowpassAlpha (st : State) (alpha : ℚ) : State :=
  { st with alphaLowpass_ := clampAlpha alpha }

/-- Lines 156-167 of `add`: if the buffer is full, evict the oldest value
from the running statistics (and possibly invalidate min/max); otherwise
grow the count. -/
def addEvict (N : ℕ) (st : State) : State :=
  if st.count_ = N then
    let oldValue := st.buffer_ st.index_
    { st with
      sum_ := st.sum_ - oldValue
      sumSq_ := st.sumSq_ - oldValue * oldValue
      needRecalcMinMax_ :=
        if oldValue = st.minVal_ ∨ oldValue = st.maxVal_ then true
        else st.needRecalcMinMax_ }
  else { st with count_ := st.count_ + 1 }

/-- Lines 169-172 of `add`: write the new value at `index_` and add its
contributions to the accumulators. -/
def addStore (st : State) (value : ℚ) : State :=
  { st with
    buffer_ := fun i => if i = st.index_ then value else st.buffer_ i
    sum_ := st.sum_ + value
    sumSq_ := st.sumSq_ + value * value }

/-- Lines 174-181 of `add`: seed or extend min/max (skipped while a full
recalculation is pending). -/
def addMinMax (st : State) (value : ℚ) : State :=
  if st.count_ = 1 then
    { st with minVal_ := value, maxVal_ := value, needRecalcMinMax_ := false }
  else if st.needRecalcMinMax_ = false then
    { st with
      minVal_ := if value < st.minVal_ then value else st.minVal_
      maxVal_ := if st.maxVal_ < value then value else st.maxVal_ }
  else st

/-- Lines 183-188 of `add`: EMA update, seeded on the first sample. -/
def addEma (st : State) (value : ℚ) : State :=
  if st.count_ = 1 then { st with ema_ := value }
  else { st with ema_ := st.alphaEma_ * value + (1 - st.alphaEma_) * st.ema_ }

/-- Lines 190-215 of `add`: the derivative/integrator block.  The guard
`timeMs > 0 && (timeMs - lastTimeMs_ > derivativePeriodMs_)` uses unsigned
32-bit subtraction; inside the guard `if (timeMs > 0) lastTimeMs_ = timeMs`
always fires because the guard already requires `timeMs > 0`.  The C++
local `int val = useEmaFilteredValueForDerivation_ ? ema_ : value` converts
the selected value to `int`, truncating toward zero (`ratTrunc`). -/
def addRate (st : State) (value : ℚ) (timeMs : ℕ) : State :=
  let elapsed : ℕ := (timeMs + 2 ^ 32 - st.lastTimeMs_) % 2 ^ 32
  if 0 < timeMs ∧ st.derivativePeriodMs_ < elapsed then
    let dt : ℚ := (elapsed : ℚ) * (1 / 1000)
    let val : ℤ :=
      ratTrunc (if st.useEmaFilteredValueForDerivation_ then st.ema_ else value)
    let rawDerivative : ℚ := ((val : ℚ) - st.lastValue_) / dt
    let newFiltered :=
      if st.count_ ≤ 2 then rawDerivative
      else st.alphaDerivFilter_ * rawDerivative +
        (1 - st.alphaDerivFilter_) * st.derivativeFiltered_
    let newIntegrator :=
      if 1 < st.count_ then
        st.integrator_ + 1 / 2 * (st.lastIntegrandValue_ + value) * dt
      else st.integrator_
    { st with
      derivative_ := rawDerivative
      derivativeFiltered_ := newFiltered
      integrator_ := newIntegrator
      lastIntegrandValue_ := value
      lastTimeMs_ := timeMs
      lastValue_ := (val : ℚ) }
  else st

/-- Lines 221-222 of `add`: advance the write index cyclically. -/
def addIndex (N : ℕ) (st : State) : State :=
  { st with index_ := if N ≤ st.index_ + 1 then 0 else st.index_ + 1 }

/-- `add(T value, uint32_t timeMs = 0)` (source lines 154-223): the
composition of its five statement blocks in source order. -/
def add (N : ℕ) (st : State) (value : ℚ) (timeMs : ℕ) : State :=
  addIndex N (addRate (addEma (addMinMax (addStore (addEvict N st) value) value) value) value timeMs)

/-- `reset()` (source lines 236-250). -/
def reset (st : State) : State :=
  { st with
    count_ := 0
    index_ := 0
    sum_ := 0
    sumSq_ := 0
    minVal_ := 0
    maxVal_ := 0
    needRecalcMinMax_ := false
    ema_ := 0
    lastValue_ := 0
    lastTimeMs_ := 0
    derivative_ := 0
    derivativeFiltered_ := 0
    integrator_ := 0
    lastIntegrandValue_ := 0 }

/-- `resetIntegral()` (source lines 328-331). -/
def resetIntegral (st : State) : State :=
  { st with integrator_ := 0, lastIntegrandValue_ := 0 }

/-- `recalculateMinMax()` (source lines 74-90): full rescan over slots
`0 .. count_-1`; the loop keeps a running min and max in one pass. -/
def recalculateMinMax (st : State) : State :=
  if st.count_ = 0 then
    { st with minVal_ := 0, maxVal_ := 0, needRecalcMinMax_ := false }
  else
    let mm :=
      (List.range' 1 (st.count_ - 1)).foldl
        (fun (p : ℚ × ℚ) i =>
          (if st.buffer_ i < p.1 then st.buffer_ i else p.1,
           if p.2 < st.buffer_ i then st.buffer_ i else p.2))
        (st.buffer_ 0, st.buffer_ 0)
    { st with minVal_ := mm.1, maxVal_ := mm.2, needRecalcMinMax_ := false }

/-- `getCount()` (source line 257). -/
def getCount (st : State) : ℕ := st.count_

/-- `getSum()` (source line 260). -/
def getSum (st : State) : ℚ := st.sum_

/-- `getMean()` (source lines 263-265). -/
def getMean (st : State) : ℚ :=
  if 0 < st.count_ then st.sum_ / (st.count_ : ℚ) else 0

/-- `getVariance()` (source lines 268-272): the shifted-sum sample
variance, with no clamping of the result. -/
def getVariance (st : State) : ℚ :=
  if st.count_ ≤ 1 then 0
  else (st.sumSq_ - (st.count_ : ℚ) * getMean st * getMean st) / ((st.count_ : ℚ) - 1)

/-- `getMin()` (source lines 287-290): lazily recalculates, then returns
`minVal_`; it mutates the state, so the result is a pair. -/
def getMin (st : State) : ℚ × State :=
  let stR := if st.needRecalcMinMax_ = true then recalculateMinMax st else st
  (stR.minVal_, stR)

/-- `getMax()` (source lines 293-296). -/
def getMax (st : State) : ℚ × State :=
  let stR := if st.needRecalcMinMax_ = true then recalculateMinMax st else st
  (stR.maxVal_, stR)

/-- `getEma()` (source line 309). -/
def getEma (st : State) : ℚ := st.ema_

/-- `getDerivative()` (source line 319). -/
def getDerivative (st : State) : ℚ := st.derivative_

/-- `getDerivativeFiltered()` (source line 322). -/
def getDerivativeFiltered (st : State) : ℚ := st.derivativeFiltered_

/-- `getIntegral()` (source line 325). -/
def getIntegral (st : State) : ℚ := st.integrator_

/-- One public mutating operation of the class. -/
inductive Op where
  | add (value : ℚ) (timeMs : ℕ)
  | reset
  | resetIntegral
  | setEmaAlpha (alpha : ℚ)
  | setDerivativeFilterAlpha (alpha : ℚ)
  | setLowpassAlpha (alpha : ℚ)
  | setDerivativePeriodMs (period : ℕ)
  | setIsEmaUseForDerivative (b : Bool)

/-- Interpretation of one operation on the state. -/
def applyOp (N : ℕ) (st : State) : Op → State
  | Op.add v t => add N st v t
  | Op.reset => reset st
  | Op.resetIntegral => resetIntegral st
  | Op.setEmaAlpha a => setEmaAlpha st a
  | Op.setDerivativeFilterAlpha a => setDerivativeFilterAlpha st a
  | Op.setLowpassAlpha a => setLowpassAlpha st a
  | Op.setDerivativePeriodMs p => setDerivativePeriodMs st p
  | Op.setIsEmaUseForDerivative b => setIsEmaUseForDerivative st b

/-- Run a sequence of operations left to right. -/
def runOps (N : ℕ) (st : State) (ops : List Op) : State :=
  ops.foldl (applyOp N) st

/-- How one operation changes the add-history since the last `reset`. -/
def histStep (A : List ℚ) : Op → List ℚ
  | Op.add v _ => A ++ [v]
  | Op.reset => []
  | _ => A

/-- The values added since the last `reset` (the whole history when no
reset occurred), read off an operation sequence. -/
def addedValues (ops : List Op) : List ℚ :=
  ops.foldl histStep []

/-- The currently-resident samples: the last `min |A| N` values of the
add-history `A`. -/
def lastWindow (N : ℕ) (A : List ℚ) : List ℚ :=
  A.drop (A.length - min A.length N)

/-- The values sitting in the occupied buffer slots `0 .. count_-1`. -/
def slotList (st : State) : List ℚ := (List.range st.count_).map st.buffer_

/-- `m` is the true minimum of the list `l`. -/
def isMinOf (m : ℚ) (l : List ℚ) : Prop := m ∈ l ∧ ∀ x ∈ l, m ≤ x

/-- `m` is the true maximum of the list `l`. -/
def isMaxOf (m : ℚ) (l : List ℚ) : Prop := m ∈ l ∧ ∀ x ∈ l, x ≤ m

/-! ### Field characterisations of the phases of `add` -/

theorem addEvict_count (N : ℕ) (st : State) :
    (addEvict N st).count_ = if st.count_ = N then st.count_ else st.count_ + 1 := by
  simp only [addEvict]; split_ifs <;> rfl

theorem addEvict_index (N : ℕ) (st : State) : (addEvict N st).index_ = st.index_ := by
  simp only [addEvict]; split_ifs <;> rfl

theorem addEvict_buffer (N : ℕ) (st : State) : (addEvict N st).buffer_ = st.buffer_ := by
  simp only [addEvict]; split_ifs <;> rfl

theorem addEvict_sum (N : ℕ) (st : State) :
    (addEvict N st).sum_ =
      if st.count_ = N then st.sum_ - st.buffer_ st.index_ else st.sum_ := by
  simp only [addEvict]; split_ifs <;> rfl

theorem addEvict_sumSq (N : ℕ) (st : State) :
    (addEvict N st).sumSq_ =
      if st.count_ = N then st.sumSq_ - st.buffer_ st.index_ * st.buffer_ st.index_
      else st.sumSq_ := by
  simp only [addEvict]; split_ifs <;> rfl

theorem addEvict_minVal (N : ℕ) (st : State) : (addEvict N st).minVal_ = st.minVal_ := by
  simp only [addEvict]; split_ifs <;> rfl

theorem addEvict_maxVal (N : ℕ) (st : State) : (addEvict N st).maxVal_ = st.maxVal_ := by
  simp only [addEvict]; split_ifs <;> rfl

theorem addEvict_stale (N : ℕ) (st : State) :
    (addEvict N st).needRecalcMinMax_ =
      if st.count_ = N then
        (if st.buffer_ st.index_ = st.minVal_ ∨ st.buffer_ st.index_ = st.maxVal_ then true
         else st.needRecalcMinMax_)
      else st.needRecalcMinMax_ := by
  simp only [addEvict]; split_ifs <;> rfl

theorem addEvict_ema (N : ℕ) (st : State) : (addEvict N st).ema_ = st.ema_ := by
  simp only [addEvict]; split_ifs <;> rfl

theorem addMinMax_count (st : State) (v : ℚ) : (addMinMax st v).count_ = st.count_ := by
  simp only [addMinMax]; split_ifs <;> rfl

theorem addMinMax_index (st : State) (v : ℚ) : (addMinMax st v).index_ = st.index_ := by
  simp only [addMinMax]; split_ifs <;> rfl

theorem addMinMax_buffer (st : State) (v : ℚ) : (addMinMax st v).buffer_ = st.buffer_ := by
  simp only [addMinMax]; split_ifs <;> rfl

theorem addMinMax_sum (st : State) (v : ℚ) : (addMinMax st v).sum_ = st.sum_ := by
  simp only [addMinMax]; split_ifs <;> rfl

theorem addMinMax_sumSq (st : State) (v : ℚ) : (addMinMax st v).sumSq_ = st.sumSq_ := by
  simp only [addMinMax]; split_ifs <;> rfl

theorem addMinMax_minVal (st : State) (v : ℚ) :
    (addMinMax st v).minVal_ =
      if st.count_ = 1 then v
      else if st.needRecalcMinMax_ = false then (if v < st.minVal_ then v else st.minVal_)
      else st.minVal_ := by
  simp only [addMinMax]; split_ifs <;> rfl

theorem addMinMax_maxVal (st : State) (v : ℚ) :
    (addMinMax st v).maxVal_ =
      if st.count_ = 1 then v
      else if st.needRecalcMinMax_ = false then (if st.maxVal_ < v then v else st.maxVal_)
      else st.maxVal_ := by
  simp only [addMinMax]; split_ifs <;> rfl

theorem addMinMax_stale (st : State) (v : ℚ) :
    (addMinMax st v).needRecalcMinMax_ =
      if st.count_ = 1 then false else st.needRecalcMinMax_ := by
  simp only [addMinMax]
  split_ifs <;> simp_all

theorem addMinMax_ema (st : State) (v : ℚ) : (addMinMax st v).ema_ = st.ema_ := by
  simp only [addMinMax]; split_ifs <;> rfl

theorem addEma_count (st : State) (v : ℚ) : (addEma st v).count_ = st.count_ := by
  simp only [addEma]; split_ifs <;> rfl

theorem addEma_index (st : State) (v : ℚ) : (addEma st v).index_ = st.index_ := by
  simp only [addEma]; split_ifs <;> rfl

theorem addEma_buffer (st : State) (v : ℚ) : (addEma st v).buffer_ = st.buffer_ := by
  simp only [addEma]; split_ifs <;> rfl

theorem addEma_sum (st : State) (v : ℚ) : (addEma st v).sum_ = st.sum_ := by
  simp only [addEma]; split_ifs <;> rfl

theorem addEma_sumSq (st : State) (v : ℚ) : (addEma st v).sumSq_ = st.sumSq_ := by
  simp only [addEma]; split_ifs <;> rfl

theorem addEma_minVal (st : State) (v : ℚ) : (addEma st v).minVal_ = st.minVal_ := by
  simp only [addEma]; split_ifs <;> rfl

theorem addEma_maxVal (st : State) (v : ℚ) : (addEma st v).maxVal_ = st.maxVal_ := by
  simp only [addEma]; split_ifs <;> rfl

theorem addEma_stale (st : State) (v : ℚ) :
    (addEma st v).needRecalcMinMax_ = st.needRecalcMinMax_ := by
  simp only [addEma]; split_ifs <;> rfl

theorem addEma_ema (st : State) (v : ℚ) :
    (addEma st v).ema_ =
      if st.count_ = 1 then v
      else st.alphaEma_ * v + (1 - st.alphaEma_) * st.ema_ := by
  simp only [addEma]; split_ifs <;> rfl

theorem addRate_count (st : State) (v : ℚ) (t : ℕ) : (addRate st v t).count_ = st.count_ := by
  simp only [addRate]; split <;> rfl

theorem addRate_index (st : State) (v : ℚ) (t : ℕ) : (addRate st v t).index_ = st.index_ := by
  simp only [addRate]; split <;> rfl

theorem addRate_buffer (st : State) (v : ℚ) (t : ℕ) :
    (addRate st v t).buffer_ = st.buffer_ := by
  simp only [addRate]; split <;> rfl

theorem addRate_sum (st : State) (v : ℚ) (t : ℕ) : (addRate st v t).sum_ = st.sum_ := by
  simp only [addRate]; split <;> rfl

theorem addRate_sumSq (st : State) (v : ℚ) (t : ℕ) : (addRate st v t).sumSq_ = st.sumSq_ := by
  simp only [addRate]; split <;> rfl

theorem addRate_minVal (st : State) (v : ℚ) (t : ℕ) :
    (addRate st v t).minVal_ = st.minVal_ := by
  simp only [addRate]; split <;> rfl

theorem addRate_maxVal (st : State) (v : ℚ) (t : ℕ) :
    (addRate st v t).maxVal_ = st.maxVal_ := by
  simp only [addRate]; split <;> rfl

theorem addRate_stale (st : State) (v : ℚ) (t : ℕ) :
    (addRate st v t).needRecalcMinMax_ = st.needRecalcMinMax_ := by
  simp only [addRate]; split <;> rfl

theorem addRate_ema (st : State) (v : ℚ) (t : ℕ) : (addRate st v t).ema_ = st.ema_ := by
  simp only [addRate]; split <;> rfl

/-- When the guard fails (no timestamp, or the 32-bit elapsed time is not
above the configured period), the rate block is a no-op. -/
theorem addRate_skip (st : State) (v : ℚ) (t : ℕ)
    (h : t = 0 ∨ (t + 2 ^ 32 - st.lastTimeMs_) % 2 ^ 32 ≤ st.derivativePeriodMs_) :
    addRate st v t = st := by
  have hng : ¬(0 < t ∧ st.derivativePeriodMs_ < (t + 2 ^ 32 - st.lastTimeMs_) % 2 ^ 32) := by
    rcases h with h | h
    · exact fun hc => by omega
    · exact fun hc => by omega
  simp only [addRate, if_neg hng]

theorem addIndex_count (N : ℕ) (st : State) : (addIndex N st).count_ = st.count_ := rfl

theorem addIndex_index (N : ℕ) (st : State) :
    (addIndex N st).index_ = if N ≤ st.index_ + 1 then 0 else st.index_ + 1 := rfl

theorem addIndex_buffer (N : ℕ) (st : State) : (addIndex N st).buffer_ = st.buffer_ := rfl

/-! ### Field characterisations of `add` itself -/

theorem add_count (N : ℕ) (st : State) (v : ℚ) (t : ℕ) :
    (add N st v t).count_ = if st.count_ = N then st.count_ else st.count_ + 1 := by
  simp only [add, addIndex_count, addRate_count, addEma_count, addMinMax_count, addStore,
    addEvict_count]

theorem add_index (N : ℕ) (st : State) (v : ℚ) (t : ℕ) :
    (add N st v t).index_ = if N ≤ st.index_ + 1 then 0 else st.index_ + 1 := by
  simp only [add, addIndex_index, addRate_index, addEma_index, addMinMax_index, addStore,
    addEvict_index]

theorem add_buffer (N : ℕ) (st : State) (v : ℚ) (t : ℕ) :
    (add N st v t).buffer_ = fun i => if i = st.index_ then v else st.buffer_ i := by
  simp only [add, addIndex_buffer, addRate_buffer, addEma_buffer, addMinMax_buffer, addStore,
    addEvict_buffer, addEvict_index]

theorem add_sum (N : ℕ) (st : State) (v : ℚ) (t : ℕ) :
    (add N st v t).sum_ =
      (if st.count_ = N then st.sum_ - st.buffer_ st.index_ else st.sum_) + v := by
  simp only [add, addIndex, addRate_sum, addEma_sum, addMinMax_sum, addStore, addEvict_sum]

theorem add_sumSq (N : ℕ) (st : State) (v : ℚ) (t : ℕ) :
    (add N st v t).sumSq_ =
      (if st.count_ = N then st.sumSq_ - st.buffer_ st.index_ * st.buffer_ st.index_
       else st.sumSq_) + v * v := by
  simp only [add, addIndex, addRate_sumSq, addEma_sumSq, addMinMax_sumSq, addStore,
    addEvict_sumSq]

theorem add_stale (N : ℕ) (st : State) (v : ℚ) (t : ℕ) :
    (add N st v t).needRecalcMinMax_ =
      if (if st.count_ = N then st.count_ else st.count_ + 1) = 1 then false
      else
        if st.count_ = N then
          (if st.buffer_ st.index_ = st.minVal_ ∨ st.buffer_ st.index_ = st.maxVal_ then true
           else st.needRecalcMinMax_)
        else st.needRecalcMinMax_ := by
  simp only [add, addIndex, addRate_stale, addEma_stale, addMinMax_stale, addStore,
    addEvict_stale, addEvict_count]

theorem add_minVal (N : ℕ) (st : State) (v : ℚ) (t : ℕ) :
    (add N st v t).minVal_ =
      if (if st.count_ = N then st.count_ else st.count_ + 1) = 1 then v
      else
        if (if st.count_ = N then
              (if st.buffer_ st.index_ = st.minVal_ ∨ st.buffer_ st.index_ = st.maxVal_ then true
               else st.needRecalcMinMax_)
            else st.needRecalcMinMax_) = false then
          (if v < st.minVal_ then v else st.minVal_)
        else st.minVal_ := by
  simp only [add, addIndex, addRate_minVal, addEma_minVal, addMinMax_minVal, addStore,
    addEvict_minVal, addEvict_stale, addEvict_count]

theorem add_maxVal (N : ℕ) (st : State) (v : ℚ) (t : ℕ) :
    (add N st v t).maxVal_ =
      if (if st.count_ = N then st.count_ else st.count_ + 1) = 1 then v
      else
        if (if st.count_ = N then
              (if st.buffer_ st.index_ = st.minVal_ ∨ st.buffer_ st.index_ = st.maxVal_ then true
               else st.needRecalcMinMax_)
            else st.needRecalcMinMax_) = false then
          (if st.maxVal_ < v then v else st.maxVal_)
        else st.maxVal_ := by
  simp only [add, addIndex, addRate_maxVal, addEma_maxVal, addMinMax_maxVal, addStore,
    addEvict_maxVal, addEvict_stale, addEvict_count]

/-! ### The residency invariant -/

theorem lastWindow_length (N : ℕ) (A : List ℚ) :
    (lastWindow N A).length = min A.length N := by
  simp only [lastWindow, List.length_drop]
  omega

theorem lastWindow_of_le (N : ℕ) (A : List ℚ) (h : A.length ≤ N) : lastWindow N A = A := by
  simp [lastWindow, Nat.min_eq_left h]

theorem lastWindow_of_ge (N : ℕ) (A : List ℚ) (h : N ≤ A.length) :
    lastWindow N A = A.drop (A.length - N) := by
  simp [lastWindow, Nat.min_eq_right h]

theorem lastWindow_append_of_ge (N : ℕ) (hN : 0 < N) (A : List ℚ) (v : ℚ)
    (h : N ≤ A.length) :
    lastWindow N (A ++ [v]) = A.drop (A.length + 1 - N) ++ [v] := by
  have h1 : (A ++ [v]).length = A.length + 1 := by simp
  rw [lastWindow, h1, Nat.min_eq_right (by omega),
    List.drop_append_of_le_length (by omega : A.length + 1 - N ≤ A.length)]

theorem lastWindow_nil (N : ℕ) : lastWindow N [] = [] := by
  simp [lastWindow]

/-- The coupling between a state, the add-history `A` since the last
reset, and the occupied buffer slots: `count_` and `index_` are determined
by `|A|`; each of the last `min |A| N` history entries sits at its write
slot; the occupied slots are a permutation of the resident window; the
accumulators hold the window's sum and sum of squares; and when the
min/max cache is not stale it holds the window's true extrema. -/
structure Good (N : ℕ) (A : List ℚ) (st : State) : Prop where
  count_eq : st.count_ = min A.length N
  index_eq : st.index_ = A.length % N
  slots : ∀ j, A.length - N ≤ j → ∀ h : j < A.length, st.buffer_ (j % N) = A[j]
  perm : List.Perm (slotList st) (lastWindow N A)
  sum_eq : st.sum_ = (lastWindow N A).sum
  sumSq_eq : st.sumSq_ = ((lastWindow N A).map fun x => x * x).sum
  minmax : st.needRecalcMinMax_ = false → 0 < A.length →
      isMinOf st.minVal_ (lastWindow N A) ∧ isMaxOf st.maxVal_ (lastWindow N A)

theorem good_empty (N : ℕ) (st : State) (hcount : st.count_ = 0) (hindex : st.index_ = 0)
    (hsum : st.sum_ = 0) (hsq : st.sumSq_ = 0) : Good N [] st := by
  refine ⟨?_, ?_, ?_, ?_, ?_, ?_, ?_⟩
  · simpa using hcount
  · simpa using hindex
  · intro j _ h
    exact absurd h (by simp)
  · simp [slotList, hcount, lastWindow_nil]
  · rw [lastWindow_nil]
    simpa using hsum
  · rw [lastWindow_nil]
    simpa using hsq
  · intro _ h
    exact absurd h (by simp)

theorem good_mkProcessor (N : ℕ) (jb : ℕ → ℚ) (jp : ℕ) (jf : Bool) :
    Good N [] (mkProcessor jb jp jf) :=
  good_empty N _ rfl rfl rfl rfl

theorem good_reset (N : ℕ) (st : State) : Good N [] (reset st) :=
  good_empty N _ rfl rfl rfl rfl
theorem isMinOf_extend (m v : ℚ) (l : List ℚ) (h : isMinOf m l) :
    isMinOf (if v < m then v else m) (l ++ [v]) := by
  obtain ⟨hm, hb⟩ := h
  split_ifs with hv
  · refine ⟨by simp, ?_⟩
    intro x hx
    rcases List.mem_append.1 hx with hx | hx
    · exact le_of_lt (lt_of_lt_of_le hv (hb x hx))
    · simp at hx
      subst hx
      exact le_refl x
  · refine ⟨List.mem_append.2 (Or.inl hm), ?_⟩
    intro x hx
    rcases List.mem_append.1 hx with hx | hx
    · exact hb x hx
    · simp at hx
      subst hx
      exact le_of_not_lt hv

theorem isMaxOf_extend (m v : ℚ) (l : List ℚ) (h : isMaxOf m l) :
    isMaxOf (if m < v then v else m) (l ++ [v]) := by
  obtain ⟨hm, hb⟩ := h
  split_ifs with hv
  · refine ⟨by simp, ?_⟩
    intro x hx
    rcases List.mem_append.1 hx with hx | hx
    · exact le_of_lt (lt_of_le_of_lt (hb x hx) hv)
    · simp at hx
      subst hx
      exact le_refl x
  · refine ⟨List.mem_append.2 (Or.inl hm), ?_⟩
    intro x hx
    rcases List.mem_append.1 hx with hx | hx
    · exact hb x hx
    · simp at hx
      subst hx
      exact le_of_not_lt hv
theorem good_add_not_full (N : ℕ) (hN : 0 < N) (A : List ℚ) (st : State)
    (hg : Good N A st) (v : ℚ) (t : ℕ) (hfull : ¬st.count_ = N) :
    Good N (A ++ [v]) (add N st v t) := by
  obtain ⟨hc, hi, hs, hp, hsum, hsq, hmm⟩ := hg
  have hkN : A.length < N := by omega
  have hcnt : st.count_ = A.length := by omega
  have hidx : st.index_ = A.length := by rw [hi, Nat.mod_eq_of_lt hkN]
  have hlen : (A ++ [v]).length = A.length + 1 := by simp
  have hW : lastWindow N A = A := lastWindow_of_le N A (le_of_lt hkN)
  have hW' : lastWindow N (A ++ [v]) = A ++ [v] := by
    apply lastWindow_of_le
    rw [hlen]
    omega
  refine ⟨?_, ?_, ?_, ?_, ?_, ?_, ?_⟩
  · rw [add_count, if_neg hfull, hlen]
    omega
  · rw [add_index, hlen, hidx]
    split_ifs with h1
    · rw [show N = A.length + 1 by omega, Nat.mod_self]
    · rw [Nat.mod_eq_of_lt (by omega)]
  · intro j hj1 hj2
    simp only [add_buffer]
    rw [hlen] at hj2
    by_cases hjk : j = A.length
    · subst hjk
      rw [Nat.mod_eq_of_lt hkN, hidx, if_pos rfl]
      exact (List.getElem_concat_length A v _ rfl (by simp)).symm
    · have hjlt : j < A.length := by omega
      rw [Nat.mod_eq_of_lt (by omega : j < N), hidx, if_neg hjk]
      have hsj := hs j (by omega) hjlt
      rw [Nat.mod_eq_of_lt (by omega : j < N)] at hsj
      rw [hsj]
      exact (List.getElem_append_left hjlt).symm
  · have hcount' : (add N st v t).count_ = A.length + 1 := by
      rw [add_count, if_neg hfull]
      omega
    have hthis : slotList (add N st v t) = (List.range A.length).map st.buffer_ ++ [v] := by
      rw [slotList, hcount', add_buffer, List.range_succ, List.map_append]
      congr 1
      · apply List.map_congr_left
        intro i hi
        have hilt : i < A.length := List.mem_range.1 hi
        exact if_neg (by omega)
      · simp [hidx]
    rw [hthis, hW']
    have hsl : slotList st = (List.range A.length).map st.buffer_ := by
      rw [slotList, hcnt]
    rw [← hsl]
    rw [hW] at hp
    exact hp.append_right [v]
  · rw [add_sum, if_neg hfull, hW', hsum, hW]
    simp
  · rw [add_sumSq, if_neg hfull, hW', hsq, hW]
    simp
  · intro hst hpos
    rw [hW']
    rw [add_stale] at hst
    simp only [if_neg hfull] at hst
    by_cases h1 : st.count_ + 1 = 1
    · have hA : A = [] := List.length_eq_zero.1 (by omega)
      subst hA
      have hmin' : (add N st v t).minVal_ = v := by
        rw [add_minVal]
        simp only [if_neg hfull]
        rw [if_pos h1]
      have hmax' : (add N st v t).maxVal_ = v := by
        rw [add_maxVal]
        simp only [if_neg hfull]
        rw [if_pos h1]
      rw [hmin', hmax']
      simp [isMinOf, isMaxOf]
    · rw [if_neg h1] at hst
      have hmin' : (add N st v t).minVal_ = if v < st.minVal_ then v else st.minVal_ := by
        rw [add_minVal]
        simp only [if_neg hfull]
        rw [if_neg h1, if_pos hst]
      have hmax' : (add N st v t).maxVal_ = if st.maxVal_ < v then v else st.maxVal_ := by
        rw [add_maxVal]
        simp only [if_neg hfull]
        rw [if_neg h1, if_pos hst]
      have hApos : 0 < A.length := by omega
      have hmmA := hmm hst hApos
      rw [hW] at hmmA
      rw [hmin', hmax']
      exact ⟨isMinOf_extend _ v A hmmA.1, isMaxOf_extend _ v A hmmA.2⟩
theorem range_split (N r : ℕ) (h : r < N) :
    List.range N = List.range' 0 r ++ r :: List.range' (r + 1) (N - r - 1) := by
  obtain ⟨m, rfl⟩ : ∃ m, N = r + m + 1 := ⟨N - r - 1, by omega⟩
  have h2 : r + m + 1 - r - 1 = m := by omega
  rw [List.range_eq_range', h2]
  have h3 := List.range'_append_1 0 r (m + 1)
  simp only [Nat.zero_add] at h3
  rw [show r + m + 1 = m + 1 + r from by omega, ← h3, List.range'_succ]

theorem map_range_split (f : ℕ → ℚ) (N r : ℕ) (h : r < N) :
    (List.range N).map f
      = (List.range' 0 r).map f ++ f r :: (List.range' (r + 1) (N - r - 1)).map f := by
  rw [range_split N r h]
  simp

theorem map_update_eq (f : ℕ → ℚ) (v : ℚ) (r : ℕ) (l : List ℕ) (h : ∀ i ∈ l, i ≠ r) :
    (l.map fun i => if i = r then v else f i) = l.map f :=
  List.map_congr_left fun i hi => if_neg (h i hi)

theorem good_add_full (N : ℕ) (hN : 0 < N) (A : List ℚ) (st : State)
    (hg : Good N A st) (v : ℚ) (t : ℕ) (hfull : st.count_ = N) :
    Good N (A ++ [v]) (add N st v t) := by
  obtain ⟨hc, hi, hs, hp, hsum, hsq, hmm⟩ := hg
  have hNk : N ≤ A.length := by omega
  have hklt : A.length - N < A.length := by omega
  have hmodeq : A.length % N = (A.length - N) % N := Nat.mod_eq_sub_mod hNk
  have hrlt : A.length % N < N := Nat.mod_lt _ hN
  have ho : st.buffer_ st.index_ = A[A.length - N] := by
    rw [hi, hmodeq]
    exact hs (A.length - N) (le_refl _) hklt
  have hWdecomp : lastWindow N A = A[A.length - N] :: A.drop (A.length - N + 1) := by
    rw [lastWindow_of_ge N A hNk]
    exact List.drop_eq_getElem_cons hklt
  have hW' : lastWindow N (A ++ [v]) = A.drop (A.length - N + 1) ++ [v] := by
    rw [lastWindow_append_of_ge N hN A v hNk]
    congr 2
    omega
  refine ⟨?_, ?_, ?_, ?_, ?_, ?_, ?_⟩
  · rw [add_count, if_pos hfull, hfull]
    simp only [List.length_append, List.length_singleton]
    omega
  · rw [add_index, hi]
    rw [show (A ++ [v]).length = A.length + 1 from by simp]
    have e1 : (A.length + 1) % N = (A.length % N + 1) % N := (Nat.mod_add_mod A.length N 1).symm
    split_ifs with h1
    · rw [e1, show A.length % N + 1 = N from by omega, Nat.mod_self]
    · rw [e1, Nat.mod_eq_of_lt (show A.length % N + 1 < N from by omega)]
  · intro j hj1 hj2
    simp only [add_buffer]
    rw [show (A ++ [v]).length = A.length + 1 from by simp] at hj1 hj2
    by_cases hjk : j = A.length
    · subst hjk
      rw [hi, if_pos rfl]
      exact (List.getElem_concat_length A v _ rfl (by simp)).symm
    · have hjlt : j < A.length := by omega
      have hne : j % N ≠ A.length % N := by
        intro he
        have hdvd : N ∣ A.length - j := (Nat.modEq_iff_dvd' (le_of_lt hjlt)).1 he
        have := Nat.le_of_dvd (by omega) hdvd
        omega
      rw [hi, if_neg hne]
      rw [hs j (by omega) hjlt]
      exact (List.getElem_append_left hjlt).symm
  · have hcount' : (add N st v t).count_ = N := by
      rw [add_count, if_pos hfull, hfull]
    rw [hi] at ho
    have hslot' : slotList (add N st v t)
        = (List.range' 0 (A.length % N)).map st.buffer_ ++
            v :: (List.range' (A.length % N + 1) (N - A.length % N - 1)).map st.buffer_ := by
      rw [slotList, hcount', add_buffer, hi]
      rw [map_range_split (fun i => if i = A.length % N then v else st.buffer_ i) N
        (A.length % N) hrlt]
      congr 1
      · exact map_update_eq st.buffer_ v _ _ fun i hmem => by
          obtain ⟨x, hx, he⟩ := List.mem_range'.1 hmem
          omega
      · congr 1
        · simp
        · exact map_update_eq st.buffer_ v _ _ fun i hmem => by
            obtain ⟨x, hx, he⟩ := List.mem_range'.1 hmem
            omega
    have hslot : slotList st
        = (List.range' 0 (A.length % N)).map st.buffer_ ++
            st.buffer_ (A.length % N) ::
              (List.range' (A.length % N + 1) (N - A.length % N - 1)).map st.buffer_ := by
      rw [slotList, hfull]
      exact map_range_split st.buffer_ N (A.length % N) hrlt
    rw [hslot, hWdecomp, ho] at hp
    have hperm1 := (List.perm_middle.symm.trans hp).cons_inv
    rw [hslot', hW']
    exact (List.perm_middle.trans (hperm1.cons v)).trans
      (List.perm_append_singleton v _).symm
  · rw [add_sum, if_pos hfull, hW', hsum, hWdecomp, ho]
    simp only [List.sum_append, List.sum_cons]
    simp
  · rw [add_sumSq, if_pos hfull, hW', hsq, hWdecomp, ho]
    simp only [List.map_append, List.map_cons, List.sum_append, List.sum_cons]
    simp
  · intro hst hpos
    rw [add_stale] at hst
    simp only [if_pos hfull] at hst
    by_cases h1 : st.count_ = 1
    · have hN1 : N = 1 := by omega
      have hminv : (add N st v t).minVal_ = v := by
        rw [add_minVal]
        simp only [if_pos hfull]
        rw [if_pos h1]
      have hmaxv : (add N st v t).maxVal_ = v := by
        rw [add_maxVal]
        simp only [if_pos hfull]
        rw [if_pos h1]
      have hTnil : A.drop (A.length - N + 1) = [] := by
        apply List.drop_eq_nil_of_le
        omega
      rw [hW', hTnil, hminv, hmaxv]
      simp [isMinOf, isMaxOf]
    · rw [if_neg h1] at hst
      have hno : ¬(st.buffer_ st.index_ = st.minVal_ ∨ st.buffer_ st.index_ = st.maxVal_) := by
        intro hor2
        rw [if_pos hor2] at hst
        exact absurd hst (by simp)
      have hstale0 : st.needRecalcMinMax_ = false := by
        rw [if_neg hno] at hst
        exact hst
      have hminv : (add N st v t).minVal_ = if v < st.minVal_ then v else st.minVal_ := by
        rw [add_minVal]
        simp only [if_pos hfull]
        rw [if_neg h1, if_pos hst]
      have hmaxv : (add N st v t).maxVal_ = if st.maxVal_ < v then v else st.maxVal_ := by
        rw [add_maxVal]
        simp only [if_pos hfull]
        rw [if_neg h1, if_pos hst]
      have hmmA := hmm hstale0 (by omega)
      rw [hWdecomp] at hmmA
      obtain ⟨⟨hminmem, hminb⟩, hmaxmem, hmaxb⟩ := hmmA
      have homin : A[A.length - N] ≠ st.minVal_ := fun h => hno (Or.inl (ho.trans h))
      have homax : A[A.length - N] ≠ st.maxVal_ := fun h => hno (Or.inr (ho.trans h))
      have hminT : st.minVal_ ∈ A.drop (A.length - N + 1) := by
        rcases List.mem_cons.1 hminmem with he | he
        · exact absurd he.symm homin
        · exact he
      have hmaxT : st.maxVal_ ∈ A.drop (A.length - N + 1) := by
        rcases List.mem_cons.1 hmaxmem with he | he
        · exact absurd he.symm homax
        · exact he
      rw [hW', hminv, hmaxv]
      constructor
      · exact isMinOf_extend _ v _
          ⟨hminT, fun x hx => hminb x (List.mem_cons_of_mem _ hx)⟩
      · exact isMaxOf_extend _ v _
          ⟨hmaxT, fun x hx => hmaxb x (List.mem_cons_of_mem _ hx)⟩

theorem good_add (N : ℕ) (hN : 0 < N) (A : List ℚ) (st : State)
    (hg : Good N A st) (v : ℚ) (t : ℕ) : Good N (A ++ [v]) (add N st v t) := by
  by_cases hfull : st.count_ = N
  · exact good_add_full N hN A st hg v t hfull
  · exact good_add_not_full N hN A st hg v t hfull

theorem good_applyOp (N : ℕ) (hN : 0 < N) (A : List ℚ) (st : State) (op : Op)
    (hg : Good N A st) : Good N (histStep A op) (applyOp N st op) := by
  cases op with
  | add v t => exact good_add N hN A st hg v t
  | reset => exact good_reset N st
  | resetIntegral =>
    exact ⟨hg.count_eq, hg.index_eq, hg.slots, hg.perm, hg.sum_eq, hg.sumSq_eq, hg.minmax⟩
  | setEmaAlpha a =>
    exact ⟨hg.count_eq, hg.index_eq, hg.slots, hg.perm, hg.sum_eq, hg.sumSq_eq, hg.minmax⟩
  | setDerivativeFilterAlpha a =>
    exact ⟨hg.count_eq, hg.index_eq, hg.slots, hg.perm, hg.sum_eq, hg.sumSq_eq, hg.minmax⟩
  | setLowpassAlpha a =>
    exact ⟨hg.count_eq, hg.index_eq, hg.slots, hg.perm, hg.sum_eq, hg.sumSq_eq, hg.minmax⟩
  | setDerivativePeriodMs p =>
    exact ⟨hg.count_eq, hg.index_eq, hg.slots, hg.perm, hg.sum_eq, hg.sumSq_eq, hg.minmax⟩
  | setIsEmaUseForDerivative b =>
    exact ⟨hg.count_eq, hg.index_eq, hg.slots, hg.perm, hg.sum_eq, hg.sumSq_eq, hg.minmax⟩

theorem good_foldl (N : ℕ) (hN : 0 < N) (ops : List Op) :
    ∀ (A : List ℚ) (st : State), Good N A st →
      Good N (ops.foldl histStep A) (ops.foldl (applyOp N) st) := by
  induction ops with
  | nil => exact fun A st h => h
  | cons op ops ih =>
    intro A st h
    exact ih (histStep A op) (applyOp N st op) (good_applyOp N hN A st op h)

/-- Every run from a fresh constructor state satisfies the residency
invariant with respect to the values added since the last reset. -/
theorem good_runOps (N : ℕ) (hN : 0 < N) (jb : ℕ → ℚ) (jp : ℕ) (jf : Bool)
    (ops : List Op) :
    Good N (addedValues ops) (runOps N (mkProcessor jb jp jf) ops) :=
  good_foldl N hN ops [] (mkProcessor jb jp jf) (good_mkProcessor N jb jp jf)

/-! ### Correctness of the lazy min/max rescan -/

theorem foldl_pair_fst (f : ℕ → ℚ) (l : List ℕ) (p : ℚ × ℚ) :
    (l.foldl
      (fun (q : ℚ × ℚ) i =>
        (if f i < q.1 then f i else q.1, if q.2 < f i then f i else q.2)) p).1
      = l.foldl (fun m i => if f i < m then f i else m) p.1 := by
  induction l generalizing p with
  | nil => rfl
  | cons a l ih => exact ih _

theorem foldl_pair_snd (f : ℕ → ℚ) (l : List ℕ) (p : ℚ × ℚ) :
    (l.foldl
      (fun (q : ℚ × ℚ) i =>
        (if f i < q.1 then f i else q.1, if q.2 < f i then f i else q.2)) p).2
      = l.foldl (fun m i => if m < f i then f i else m) p.2 := by
  induction l generalizing p with
  | nil => rfl
  | cons a l ih => exact ih _

theorem foldl_min_mem (f : ℕ → ℚ) (l : List ℕ) (a : ℚ) :
    l.foldl (fun m i => if f i < m then f i else m) a ∈ a :: l.map f := by
  induction l generalizing a with
  | nil => simp
  | cons b l ih =>
    rcases List.mem_cons.1 (ih (if f b < a then f b else a)) with h | h
    · rw [List.foldl_cons, h]
      split_ifs <;> simp
    · simp [List.foldl_cons, h]

theorem foldl_min_le (f : ℕ → ℚ) (l : List ℕ) (a : ℚ) :
    ∀ x ∈ a :: l.map f, l.foldl (fun m i => if f i < m then f i else m) a ≤ x := by
  induction l generalizing a with
  | nil =>
    intro x hx
    simp at hx
    simp [hx]
  | cons b l ih =>
    intro x hx
    have ha1 : l.foldl (fun m i => if f i < m then f i else m) (if f b < a then f b else a)
        ≤ (if f b < a then f b else a) :=
      ih _ _ (List.mem_cons_self _ _)
    rcases List.mem_cons.1 hx with rfl | hx
    · refine le_trans ha1 ?_
      split_ifs with h
      · exact le_of_lt h
      · exact le_refl _
    · rcases List.mem_cons.1 hx with rfl | hx
      · refine le_trans ha1 ?_
        split_ifs with h
        · exact le_refl _
        · exact le_of_not_lt h
      · exact ih _ x (List.mem_cons_of_mem _ hx)

theorem foldl_max_mem (f : ℕ → ℚ) (l : List ℕ) (a : ℚ) :
    l.foldl (fun m i => if m < f i then f i else m) a ∈ a :: l.map f := by
  induction l generalizing a with
  | nil => simp
  | cons b l ih =>
    rcases List.mem_cons.1 (ih (if a < f b then f b else a)) with h | h
    · rw [List.foldl_cons, h]
      split_ifs <;> simp
    · simp [List.foldl_cons, h]

theorem foldl_max_le (f : ℕ → ℚ) (l : List ℕ) (a : ℚ) :
    ∀ x ∈ a :: l.map f, x ≤ l.foldl (fun m i => if m < f i then f i else m) a := by
  induction l generalizing a with
  | nil =>
    intro x hx
    simp at hx
    simp [hx]
  | cons b l ih =>
    intro x hx
    have ha1 : (if a < f b then f b else a)
        ≤ l.foldl (fun m i => if m < f i then f i else m) (if a < f b then f b else a) :=
      ih _ _ (List.mem_cons_self _ _)
    rcases List.mem_cons.1 hx with rfl | hx
    · refine le_trans ?_ ha1
      split_ifs with h
      · exact le_of_lt h
      · exact le_refl _
    · rcases List.mem_cons.1 hx with rfl | hx
      · refine le_trans ?_ ha1
        split_ifs with h
        · exact le_refl _
        · exact le_of_not_lt h
      · exact ih _ x (List.mem_cons_of_mem _ hx)

theorem slotList_cons (st : State) (hc : ¬st.count_ = 0) :
    slotList st = st.buffer_ 0 :: (List.range' 1 (st.count_ - 1)).map st.buffer_ := by
  rw [slotList, List.range_eq_range', show st.count_ = st.count_ - 1 + 1 from by omega,
    List.range'_succ]
  simp

theorem recalc_min_isMin (st : State) (hc : ¬st.count_ = 0) :
    isMinOf (recalculateMinMax st).minVal_ (slotList st) := by
  have h1 : (recalculateMinMax st).minVal_
      = (List.range' 1 (st.count_ - 1)).foldl
          (fun m i => if st.buffer_ i < m then st.buffer_ i else m) (st.buffer_ 0) := by
    simp only [recalculateMinMax, if_neg hc]
    exact foldl_pair_fst st.buffer_ _ _
  rw [h1, slotList_cons st hc]
  exact ⟨foldl_min_mem st.buffer_ _ _, foldl_min_le st.buffer_ _ _⟩

theorem recalc_max_isMax (st : State) (hc : ¬st.count_ = 0) :
    isMaxOf (recalculateMinMax st).maxVal_ (slotList st) := by
  have h1 : (recalculateMinMax st).maxVal_
      = (List.range' 1 (st.count_ - 1)).foldl
          (fun m i => if m < st.buffer_ i then st.buffer_ i else m) (st.buffer_ 0) := by
    simp only [recalculateMinMax, if_neg hc]
    exact foldl_pair_snd st.buffer_ _ _
  rw [h1, slotList_cons st hc]
  exact ⟨foldl_max_mem st.buffer_ _ _, foldl_max_le st.buffer_ _ _⟩

theorem isMinOf_perm (m : ℚ) (l₁ l₂ : List ℚ) (hp : List.Perm l₁ l₂)
    (h : isMinOf m l₁) : isMinOf m l₂ :=
  ⟨hp.mem_iff.1 h.1, fun x hx => h.2 x (hp.mem_iff.2 hx)⟩

theorem isMaxOf_perm (m : ℚ) (l₁ l₂ : List ℚ) (hp : List.Perm l₁ l₂)
    (h : isMaxOf m l₁) : isMaxOf m l₂ :=
  ⟨hp.mem_iff.1 h.1, fun x hx => h.2 x (hp.mem_iff.2 hx)⟩

/-- `getMin` returns the true minimum of the resident window in any state
satisfying the invariant, whether or not the cache is stale. -/
theorem getMin_good (N : ℕ) (hN : 0 < N) (A : List ℚ) (st : State) (hg : Good N A st)
    (hne : 0 < A.length) : isMinOf (getMin st).1 (lastWindow N A) := by
  have hcpos : ¬st.count_ = 0 := by
    have := hg.count_eq
    omega
  by_cases hstale : st.needRecalcMinMax_ = true
  · have h := recalc_min_isMin st hcpos
    have : (getMin st).1 = (recalculateMinMax st).minVal_ := by
      simp only [getMin, if_pos hstale]
    rw [this]
    exact isMinOf_perm _ _ _ hg.perm h
  · have hf : st.needRecalcMinMax_ = false := by
      simp at hstale
      exact hstale
    have : (getMin st).1 = st.minVal_ := by
      simp only [getMin, if_neg hstale]
    rw [this]
    exact (hg.minmax hf hne).1

theorem getMax_good (N : ℕ) (hN : 0 < N) (A : List ℚ) (st : State) (hg : Good N A st)
    (hne : 0 < A.length) : isMaxOf (getMax st).1 (lastWindow N A) := by
  have hcpos : ¬st.count_ = 0 := by
    have := hg.count_eq
    omega
  by_cases hstale : st.needRecalcMinMax_ = true
  · have h := recalc_max_isMax st hcpos
    have : (getMax st).1 = (recalculateMinMax st).maxVal_ := by
      simp only [getMax, if_pos hstale]
    rw [this]
    exact isMaxOf_perm _ _ _ hg.perm h
  · have hf : st.needRecalcMinMax_ = false := by
      simp at hstale
      exact hstale
    have : (getMax st).1 = st.maxVal_ := by
      simp only [getMax, if_neg hstale]
    rw [this]
    exact (hg.minmax hf hne).2

/-! ### Frame lemmas: fields each phase of `add` leaves untouched -/

theorem addEvict_lastValue (N : ℕ) (st : State) :
    (addEvict N st).lastValue_ = st.lastValue_ := by
  simp only [addEvict]; split_ifs <;> rfl

theorem addEvict_lastTime (N : ℕ) (st : State) :
    (addEvict N st).lastTimeMs_ = st.lastTimeMs_ := by
  simp only [addEvict]; split_ifs <;> rfl

theorem addEvict_period (N : ℕ) (st : State) :
    (addEvict N st).derivativePeriodMs_ = st.derivativePeriodMs_ := by
  simp only [addEvict]; split_ifs <;> rfl

theorem addEvict_useEma (N : ℕ) (st : State) :
    (addEvict N st).useEmaFilteredValueForDerivation_ = st.useEmaFilteredValueForDerivation_ := by
  simp only [addEvict]; split_ifs <;> rfl

theorem addEvict_derivative (N : ℕ) (st : State) :
    (addEvict N st).derivative_ = st.derivative_ := by
  simp only [addEvict]; split_ifs <;> rfl

theorem addEvict_derivFiltered (N : ℕ) (st : State) :
    (addEvict N st).derivativeFiltered_ = st.derivativeFiltered_ := by
  simp only [addEvict]; split_ifs <;> rfl

theorem addEvict_integrator (N : ℕ) (st : State) :
    (addEvict N st).integrator_ = st.integrator_ := by
  simp only [addEvict]; split_ifs <;> rfl

theorem addEvict_lastIntegrand (N : ℕ) (st : State) :
    (addEvict N st).lastIntegrandValue_ = st.lastIntegrandValue_ := by
  simp only [addEvict]; split_ifs <;> rfl

theorem addEvict_alphaDF (N : ℕ) (st : State) :
    (addEvict N st).alphaDerivFilter_ = st.alphaDerivFilter_ := by
  simp only [addEvict]; split_ifs <;> rfl

theorem addEvict_alphaE (N : ℕ) (st : State) :
    (addEvict N st).alphaEma_ = st.alphaEma_ := by
  simp only [addEvict]; split_ifs <;> rfl

theorem addEvict_alphaLP (N : ℕ) (st : State) :
    (addEvict N st).alphaLowpass_ = st.alphaLowpass_ := by
  simp only [addEvict]; split_ifs <;> rfl

theorem addStore_lastValue (st : State) (v : ℚ) :
    (addStore st v).lastValue_ = st.lastValue_ := rfl

theorem addStore_lastTime (st : State) (v : ℚ) :
    (addStore st v).lastTimeMs_ = st.lastTimeMs_ := rfl

theorem addStore_period (st : State) (v : ℚ) :
    (addStore st v).derivativePeriodMs_ = st.derivativePeriodMs_ := rfl

theorem addStore_useEma (st : State) (v : ℚ) :
    (addStore st v).useEmaFilteredValueForDerivation_ = st.useEmaFilteredValueForDerivation_ := rfl

theorem addStore_derivative (st : State) (v : ℚ) :
    (addStore st v).derivative_ = st.derivative_ := rfl

theorem addStore_derivFiltered (st : State) (v : ℚ) :
    (addStore st v).derivativeFiltered_ = st.derivativeFiltered_ := rfl

theorem addStore_integrator (st : State) (v : ℚ) :
    (addStore st v).integrator_ = st.integrator_ := rfl

theorem addStore_lastIntegrand (st : State) (v : ℚ) :
    (addStore st v).lastIntegrandValue_ = st.lastIntegrandValue_ := rfl

theorem addStore_alphaDF (st : State) (v : ℚ) :
    (addStore st v).alphaDerivFilter_ = st.alphaDerivFilter_ := rfl

theorem addStore_alphaE (st : State) (v : ℚ) :
    (addStore st v).alphaEma_ = st.alphaEma_ := rfl

theorem addStore_alphaLP (st : State) (v : ℚ) :
    (addStore st v).alphaLowpass_ = st.alphaLowpass_ := rfl

theorem addMinMax_lastValue (st : State) (v : ℚ) :
    (addMinMax st v).lastValue_ = st.lastValue_ := by
  simp only [addMinMax]; split_ifs <;> rfl

theorem addMinMax_lastTime (st : State) (v : ℚ) :
    (addMinMax st v).lastTimeMs_ = st.lastTimeMs_ := by
  simp only [addMinMax]; split_ifs <;> rfl

theorem addMinMax_period (st : State) (v : ℚ) :
    (addMinMax st v).derivativePeriodMs_ = st.derivativePeriodMs_ := by
  simp only [addMinMax]; split_ifs <;> rfl

theorem addMinMax_useEma (st : State) (v : ℚ) :
    (addMinMax st v).useEmaFilteredValueForDerivation_ = st.useEmaFilteredValueForDerivation_ := by
  simp only [addMinMax]; split_ifs <;> rfl

theorem addMinMax_derivative (st : State) (v : ℚ) :
    (addMinMax st v).derivative_ = st.derivative_ := by
  simp only [addMinMax]; split_ifs <;> rfl

theorem addMinMax_derivFiltered (st : State) (v : ℚ) :
    (addMinMax st v).derivativeFiltered_ = st.derivativeFiltered_ := by
  simp only [addMinMax]; split_ifs <;> rfl

theorem addMinMax_integrator (st : State) (v : ℚ) :
    (addMinMax st v).integrator_ = st.integrator_ := by
  simp only [addMinMax]; split_ifs <;> rfl

theorem addMinMax_lastIntegrand (st : State) (v : ℚ) :
    (addMinMax st v).lastIntegrandValue_ = st.lastIntegrandValue_ := by
  simp only [addMinMax]; split_ifs <;> rfl

theorem addMinMax_alphaDF (st : State) (v : ℚ) :
    (addMinMax st v).alphaDerivFilter_ = st.alphaDerivFilter_ := by
  simp only [addMinMax]; split_ifs <;> rfl

theorem addMinMax_alphaE (st : State) (v : ℚ) :
    (addMinMax st v).alphaEma_ = st.alphaEma_ := by
  simp only [addMinMax]; split_ifs <;> rfl

theorem addMinMax_alphaLP (st : State) (v : ℚ) :
    (addMinMax st v).alphaLowpass_ = st.alphaLowpass_ := by
  simp only [addMinMax]; split_ifs <;> rfl

theorem addEma_lastValue (st : State) (v : ℚ) :
    (addEma st v).lastValue_ = st.lastValue_ := by
  simp only [addEma]; split_ifs <;> rfl

theorem addEma_lastTime (st : State) (v : ℚ) :
    (addEma st v).lastTimeMs_ = st.lastTimeMs_ := by
  simp only [addEma]; split_ifs <;> rfl

theorem addEma_period (st : State) (v : ℚ) :
    (addEma st v).derivativePeriodMs_ = st.derivativePeriodMs_ := by
  simp only [addEma]; split_ifs <;> rfl

theorem addEma_useEma (st : State) (v : ℚ) :
    (addEma st v).useEmaFilteredValueForDerivation_ = st.useEmaFilteredValueForDerivation_ := by
  simp only [addEma]; split_ifs <;> rfl

theorem addEma_derivative (st : State) (v : ℚ) :
    (addEma st v).derivative_ = st.derivative_ := by
  simp only [addEma]; split_ifs <;> rfl

theorem addEma_derivFiltered (st : State) (v : ℚ) :
    (addEma st v).derivativeFiltered_ = st.derivativeFiltered_ := by
  simp only [addEma]; split_ifs <;> rfl

theorem addEma_integrator (st : State) (v : ℚ) :
    (addEma st v).integrator_ = st.integrator_ := by
  simp only [addEma]; split_ifs <;> rfl

theorem addEma_lastIntegrand (st : State) (v : ℚ) :
    (addEma st v).lastIntegrandValue_ = st.lastIntegrandValue_ := by
  simp only [addEma]; split_ifs <;> rfl

theorem addEma_alphaDF (st : State) (v : ℚ) :
    (addEma st v).alphaDerivFilter_ = st.alphaDerivFilter_ := by
  simp only [addEma]; split_ifs <;> rfl

theorem addEma_alphaE (st : State) (v : ℚ) :
    (addEma st v).alphaEma_ = st.alphaEma_ := by
  simp only [addEma]; split_ifs <;> rfl

theorem addEma_alphaLP (st : State) (v : ℚ) :
    (addEma st v).alphaLowpass_ = st.alphaLowpass_ := by
  simp only [addEma]; split_ifs <;> rfl

theorem addIndex_lastValue (N : ℕ) (st : State) :
    (addIndex N st).lastValue_ = st.lastValue_ := rfl

theorem addIndex_lastTime (N : ℕ) (st : State) :
    (addIndex N st).lastTimeMs_ = st.lastTimeMs_ := rfl

theorem addIndex_period (N : ℕ) (st : State) :
    (addIndex N st).derivativePeriodMs_ = st.derivativePeriodMs_ := rfl

theorem addIndex_useEma (N : ℕ) (st : State) :
    (addIndex N st).useEmaFilteredValueForDerivation_ = st.useEmaFilteredValueForDerivation_ := rfl

theorem addIndex_derivative (N : ℕ) (st : State) :
    (addIndex N st).derivative_ = st.derivative_ := rfl

theorem addIndex_derivFiltered (N : ℕ) (st : State) :
    (addIndex N st).derivativeFiltered_ = st.derivativeFiltered_ := rfl

theorem addIndex_integrator (N : ℕ) (st : State) :
    (addIndex N st).integrator_ = st.integrator_ := rfl

theorem addIndex_lastIntegrand (N : ℕ) (st : State) :
    (addIndex N st).lastIntegrandValue_ = st.lastIntegrandValue_ := rfl

theorem addIndex_alphaDF (N : ℕ) (st : State) :
    (addIndex N st).alphaDerivFilter_ = st.alphaDerivFilter_ := rfl

theorem addIndex_alphaE (N : ℕ) (st : State) :
    (addIndex N st).alphaEma_ = st.alphaEma_ := rfl

theorem addIndex_alphaLP (N : ℕ) (st : State) :
    (addIndex N st).alphaLowpass_ = st.alphaLowpass_ := rfl

/-! ### The state reaching the rate block, and the gated rate block -/

theorem pre_lastTime (N : ℕ) (st : State) (v : ℚ) :
    (addEma (addMinMax (addStore (addEvict N st) v) v) v).lastTimeMs_ = st.lastTimeMs_ := by
  simp only [addEma_lastTime, addMinMax_lastTime, addStore_lastTime, addEvict_lastTime]

theorem pre_period (N : ℕ) (st : State) (v : ℚ) :
    (addEma (addMinMax (addStore (addEvict N st) v) v) v).derivativePeriodMs_
      = st.derivativePeriodMs_ := by
  simp only [addEma_period, addMinMax_period, addStore_period, addEvict_period]

theorem pre_useEma (N : ℕ) (st : State) (v : ℚ) :
    (addEma (addMinMax (addStore (addEvict N st) v) v) v).useEmaFilteredValueForDerivation_
      = st.useEmaFilteredValueForDerivation_ := by
  simp only [addEma_useEma, addMinMax_useEma, addStore_useEma, addEvict_useEma]

theorem pre_lastValue (N : ℕ) (st : State) (v : ℚ) :
    (addEma (addMinMax (addStore (addEvict N st) v) v) v).lastValue_ = st.lastValue_ := by
  simp only [addEma_lastValue, addMinMax_lastValue, addStore_lastValue, addEvict_lastValue]

theorem pre_derivative (N : ℕ) (st : State) (v : ℚ) :
    (addEma (addMinMax (addStore (addEvict N st) v) v) v).derivative_ = st.derivative_ := by
  simp only [addEma_derivative, addMinMax_derivative, addStore_derivative, addEvict_derivative]

theorem pre_derivFiltered (N : ℕ) (st : State) (v : ℚ) :
    (addEma (addMinMax (addStore (addEvict N st) v) v) v).derivativeFiltered_
      = st.derivativeFiltered_ := by
  simp only [addEma_derivFiltered, addMinMax_derivFiltered, addStore_derivFiltered,
    addEvict_derivFiltered]

theorem pre_integrator (N : ℕ) (st : State) (v : ℚ) :
    (addEma (addMinMax (addStore (addEvict N st) v) v) v).integrator_ = st.integrator_ := by
  simp only [addEma_integrator, addMinMax_integrator, addStore_integrator, addEvict_integrator]

theorem pre_lastIntegrand (N : ℕ) (st : State) (v : ℚ) :
    (addEma (addMinMax (addStore (addEvict N st) v) v) v).lastIntegrandValue_
      = st.lastIntegrandValue_ := by
  simp only [addEma_lastIntegrand, addMinMax_lastIntegrand, addStore_lastIntegrand,
    addEvict_lastIntegrand]

theorem pre_alphaDF (N : ℕ) (st : State) (v : ℚ) :
    (addEma (addMinMax (addStore (addEvict N st) v) v) v).alphaDerivFilter_
      = st.alphaDerivFilter_ := by
  simp only [addEma_alphaDF, addMinMax_alphaDF, addStore_alphaDF, addEvict_alphaDF]

theorem pre_count (N : ℕ) (st : State) (v : ℚ) :
    (addEma (addMinMax (addStore (addEvict N st) v) v) v).count_
      = if st.count_ = N then st.count_ else st.count_ + 1 := by
  simp only [addEma_count, addMinMax_count, addStore, addEvict_count]

theorem pre_ema (N : ℕ) (st : State) (v : ℚ) :
    (addEma (addMinMax (addStore (addEvict N st) v) v) v).ema_
      = if (if st.count_ = N then st.count_ else st.count_ + 1) = 1 then v
        else st.alphaEma_ * v + (1 - st.alphaEma_) * st.ema_ := by
  rw [addEma_ema]
  simp only [addMinMax_count, addStore, addEvict_count, addMinMax_ema, addEvict_ema,
    addMinMax_alphaE, addEvict_alphaE]

/-- The rate block when the guard passes: every assignment of source lines
192-214, as one record update. -/
theorem addRate_gate (st : State) (v : ℚ) (t : ℕ)
    (h : 0 < t ∧ st.derivativePeriodMs_ < (t + 2 ^ 32 - st.lastTimeMs_) % 2 ^ 32) :
    addRate st v t =
      { st with
        derivative_ :=
          ((ratTrunc (if st.useEmaFilteredValueForDerivation_ then st.ema_ else v) : ℚ) -
              st.lastValue_) /
            ((((t + 2 ^ 32 - st.lastTimeMs_) % 2 ^ 32 : ℕ) : ℚ) * (1 / 1000))
        derivativeFiltered_ :=
          if st.count_ ≤ 2 then
            ((ratTrunc (if st.useEmaFilteredValueForDerivation_ then st.ema_ else v) : ℚ) -
                st.lastValue_) /
              ((((t + 2 ^ 32 - st.lastTimeMs_) % 2 ^ 32 : ℕ) : ℚ) * (1 / 1000))
          else
            st.alphaDerivFilter_ *
                (((ratTrunc (if st.useEmaFilteredValueForDerivation_ then st.ema_ else v) : ℚ) -
                    st.lastValue_) /
                  ((((t + 2 ^ 32 - st.lastTimeMs_) % 2 ^ 32 : ℕ) : ℚ) * (1 / 1000))) +
              (1 - st.alphaDerivFilter_) * st.derivativeFiltered_
        integrator_ :=
          if 1 < st.count_ then
            st.integrator_ +
              1 / 2 * (st.lastIntegrandValue_ + v) *
                ((((t + 2 ^ 32 - st.lastTimeMs_) % 2 ^ 32 : ℕ) : ℚ) * (1 / 1000))
          else st.integrator_
        lastIntegrandValue_ := v
        lastTimeMs_ := t
        lastValue_ :=
          (ratTrunc (if st.useEmaFilteredValueForDerivation_ then st.ema_ else v) : ℚ) } := by
  simp only [addRate]
  rw [if_pos h]

theorem addIndex_ema (N : ℕ) (st : State) : (addIndex N st).ema_ = st.ema_ := rfl

/-- The EMA after `add`: seeded when the post-insertion count is 1,
otherwise the first-order recurrence. -/
theorem add_ema_eq (N : ℕ) (st : State) (v : ℚ) (t : ℕ) :
    (add N st v t).ema_ =
      if (if st.count_ = N then st.count_ else st.count_ + 1) = 1 then v
      else st.alphaEma_ * v + (1 - st.alphaEma_) * st.ema_ := by
  simp only [add, addIndex_ema, addRate_ema, pre_ema]

/-- C5: a call whose timestamp is zero, or whose 32-bit elapsed time does
not exceed the configured minimum derivative period, leaves the whole rate
module (`derivative_`, `derivativeFiltered_`, `integrator_`,
`lastIntegrandValue_`, `lastValue_`, `lastTimeMs_`) unchanged, and the
rest of the state is updated exactly as an untimed `add` would update
it. -/
theorem add_short_interval_skips_rate_module (N : ℕ) (st : State) (v : ℚ) (t : ℕ)
    (h : t = 0 ∨ (t + 2 ^ 32 - st.lastTimeMs_) % 2 ^ 32 ≤ st.derivativePeriodMs_) :
    (add N st v t).derivative_ = st.derivative_ ∧
    (add N st v t).derivativeFiltered_ = st.derivativeFiltered_ ∧
    (add N st v t).integrator_ = st.integrator_ ∧
    (add N st v t).lastIntegrandValue_ = st.lastIntegrandValue_ ∧
    (add N st v t).lastValue_ = st.lastValue_ ∧
    (add N st v t).lastTimeMs_ = st.lastTimeMs_ ∧
    add N st v t = add N st v 0 := by
  have hsk : addRate (addEma (addMinMax (addStore (addEvict N st) v) v) v) v t
      = addEma (addMinMax (addStore (addEvict N st) v) v) v := by
    apply addRate_skip
    rw [pre_lastTime, pre_period]
    exact h
  have hsk0 : addRate (addEma (addMinMax (addStore (addEvict N st) v) v) v) v 0
      = addEma (addMinMax (addStore (addEvict N st) v) v) v :=
    addRate_skip _ v 0 (Or.inl rfl)
  have hadd : add N st v t
      = addIndex N (addEma (addMinMax (addStore (addEvict N st) v) v) v) := by
    simp only [add]
    rw [hsk]
  have hadd0 : add N st v 0
      = addIndex N (addEma (addMinMax (addStore (addEvict N st) v) v) v) := by
    simp only [add]
    rw [hsk0]
  refine ⟨?_, ?_, ?_, ?_, ?_, ?_, ?_⟩
  · rw [hadd, addIndex_derivative, pre_derivative]
  · rw [hadd, addIndex_derivFiltered, pre_derivFiltered]
  · rw [hadd, addIndex_integrator, pre_integrator]
  · rw [hadd, addIndex_lastIntegrand, pre_lastIntegrand]
  · rw [hadd, addIndex_lastValue, pre_lastValue]
  · rw [hadd, addIndex_lastTime, pre_lastTime]
  · rw [hadd, hadd0]

/-- C10: with an out-of-order (smaller) timestamp the elapsed time is the
32-bit wrap-around difference, and whenever that exceeds the configured
period the rate module runs with `dt` = (wrapped difference)/1000 s and
records the new timestamp. -/
theorem add_wrapped_timestamp_runs_rate_module (N : ℕ) (st : State) (v : ℚ) (t : ℕ)
    (h32 : st.lastTimeMs_ < 2 ^ 32) (ht : 0 < t) (hlt : t < st.lastTimeMs_)
    (hgate : st.derivativePeriodMs_ < t + 2 ^ 32 - st.lastTimeMs_) :
    (add N st v t).lastTimeMs_ = t ∧
    (add N st v t).derivative_ =
      ((ratTrunc (if st.useEmaFilteredValueForDerivation_ then (add N st v t).ema_ else v) : ℚ) -
          st.lastValue_) /
        (((t + 2 ^ 32 - st.lastTimeMs_ : ℕ) : ℚ) / 1000) := by
  have hmod : (t + 2 ^ 32 - st.lastTimeMs_) % 2 ^ 32 = t + 2 ^ 32 - st.lastTimeMs_ :=
    Nat.mod_eq_of_lt (by omega)
  have hg : 0 < t ∧
      (addEma (addMinMax (addStore (addEvict N st) v) v) v).derivativePeriodMs_ <
        (t + 2 ^ 32 -
          (addEma (addMinMax (addStore (addEvict N st) v) v) v).lastTimeMs_) % 2 ^ 32 := by
    rw [pre_period, pre_lastTime, hmod]
    exact ⟨ht, hgate⟩
  have hrate := addRate_gate _ v t hg
  have hadd : add N st v t
      = addIndex N (addRate (addEma (addMinMax (addStore (addEvict N st) v) v) v) v t) := by
    simp only [add]
  constructor
  · rw [hadd, addIndex_lastTime, hrate]
  · rw [add_ema_eq]
    rw [hadd, addIndex_derivative, hrate]
    simp only [pre_lastTime, pre_period, pre_lastValue, pre_useEma, pre_ema, hmod]
    rw [show (((t + 2 ^ 32 - st.lastTimeMs_ : ℕ) : ℚ)) * (1 / 1000)
        = (((t + 2 ^ 32 - st.lastTimeMs_ : ℕ) : ℚ)) / 1000 from by ring]

/-- C7 (amended): when the rate guard passes, the trapezoidal integral
accumulates `0.5 * (lastIntegrandValue_ + value) * dt` with the raw sample
value as integrand, but only when the post-insertion count exceeds 1;
`lastIntegrandValue_` is set to the raw value on every gated call. -/
theorem add_integral_gated (N : ℕ) (st : State) (v : ℚ) (t : ℕ) (ht : 0 < t)
    (hgate : st.derivativePeriodMs_ < (t + 2 ^ 32 - st.lastTimeMs_) % 2 ^ 32) :
    (add N st v t).integrator_ =
      (if 1 < (if st.count_ = N then st.count_ else st.count_ + 1) then
        st.integrator_ + 1 / 2 * (st.lastIntegrandValue_ + v) *
          ((((t + 2 ^ 32 - st.lastTimeMs_) % 2 ^ 32 : ℕ) : ℚ) * (1 / 1000))
      else st.integrator_) ∧
    (add N st v t).lastIntegrandValue_ = v := by
  have hg : 0 < t ∧
      (addEma (addMinMax (addStore (addEvict N st) v) v) v).derivativePeriodMs_ <
        (t + 2 ^ 32 -
          (addEma (addMinMax (addStore (addEvict N st) v) v) v).lastTimeMs_) % 2 ^ 32 := by
    rw [pre_period, pre_lastTime]
    exact ⟨ht, hgate⟩
  have hrate := addRate_gate _ v t hg
  have hadd : add N st v t
      = addIndex N (addRate (addEma (addMinMax (addStore (addEvict N st) v) v) v) v t) := by
    simp only [add]
  constructor
  · rw [hadd, addIndex_integrator, hrate]
    simp only [pre_count, pre_integrator, pre_lastIntegrand, pre_lastTime]
  · rw [hadd, addIndex_lastIntegrand, hrate]

/-- C8 (amended): when the rate guard passes, the smoothed derivative is
seeded to the raw derivative whenever the post-insertion count is at most
2 (not "for the first two samples reaching the module"), and follows the
EMA recurrence only when the count exceeds 2. -/
theorem add_derivative_filter_gated (N : ℕ) (st : State) (v : ℚ) (t : ℕ) (ht : 0 < t)
    (hgate : st.derivativePeriodMs_ < (t + 2 ^ 32 - st.lastTimeMs_) % 2 ^ 32) :
    (add N st v t).derivative_ =
      ((ratTrunc (if st.useEmaFilteredValueForDerivation_ then (add N st v t).ema_ else v) : ℚ) -
          st.lastValue_) /
        ((((t + 2 ^ 32 - st.lastTimeMs_) % 2 ^ 32 : ℕ) : ℚ) * (1 / 1000)) ∧
    (add N st v t).derivativeFiltered_ =
      (if (if st.count_ = N then st.count_ else st.count_ + 1) ≤ 2 then
        (add N st v t).derivative_
      else
        st.alphaDerivFilter_ * (add N st v t).derivative_ +
          (1 - st.alphaDerivFilter_) * st.derivativeFiltered_) := by
  have hg : 0 < t ∧
      (addEma (addMinMax (addStore (addEvict N st) v) v) v).derivativePeriodMs_ <
        (t + 2 ^ 32 -
          (addEma (addMinMax (addStore (addEvict N st) v) v) v).lastTimeMs_) % 2 ^ 32 := by
    rw [pre_period, pre_lastTime]
    exact ⟨ht, hgate⟩
  have hrate := addRate_gate _ v t hg
  have hadd : add N st v t
      = addIndex N (addRate (addEma (addMinMax (addStore (addEvict N st) v) v) v) v t) := by
    simp only [add]
  have hder : (add N st v t).derivative_ =
      ((ratTrunc (if st.useEmaFilteredValueForDerivation_ then (add N st v t).ema_ else v) : ℚ) -
          st.lastValue_) /
        ((((t + 2 ^ 32 - st.lastTimeMs_) % 2 ^ 32 : ℕ) : ℚ) * (1 / 1000)) := by
    rw [add_ema_eq]
    rw [hadd, addIndex_derivative, hrate]
    simp only [pre_lastTime, pre_period, pre_lastValue, pre_useEma, pre_ema]
  refine ⟨hder, ?_⟩
  rw [hder, add_ema_eq]
  rw [hadd, addIndex_derivFiltered, hrate]
  simp only [pre_lastTime, pre_period, pre_lastValue, pre_useEma, pre_ema, pre_count,
    pre_derivFiltered, pre_alphaDF]

/-! ### Claim theorems on concrete runs -/

/-- A processor as constructed with capacity-independent state, taking the
indeterminate members as zero junk, then configured explicitly where a run
needs them. -/
def exProc : State := mkProcessor (fun _ => 0) 0 false

/-- C1: after every operation sequence, `sum_` and `sumSq_` are the exact
sum and sum of squares of the currently-resident samples (the last
`min |A| N` values added since the last reset), `count_` is their number,
and `getMean` is their sum divided by `count_`, 0 when the buffer is
empty. -/
theorem accumulators_track_resident_window (N : ℕ) (hN : 2 ≤ N) (jb : ℕ → ℚ) (jp : ℕ)
    (jf : Bool) (ops : List Op) :
    (runOps N (mkProcessor jb jp jf) ops).sum_ = (lastWindow N (addedValues ops)).sum ∧
    (runOps N (mkProcessor jb jp jf) ops).sumSq_
      = ((lastWindow N (addedValues ops)).map fun x => x * x).sum ∧
    (runOps N (mkProcessor jb jp jf) ops).count_ = (lastWindow N (addedValues ops)).length ∧
    ((runOps N (mkProcessor jb jp jf) ops).count_ = 0 →
      getMean (runOps N (mkProcessor jb jp jf) ops) = 0) ∧
    (0 < (runOps N (mkProcessor jb jp jf) ops).count_ →
      getMean (runOps N (mkProcessor jb jp jf) ops)
        = (lastWindow N (addedValues ops)).sum
            / ((runOps N (mkProcessor jb jp jf) ops).count_ : ℚ)) := by
  have hg := good_runOps N (by omega) jb jp jf ops
  refine ⟨hg.sum_eq, hg.sumSq_eq, ?_, ?_, ?_⟩
  · rw [hg.count_eq, lastWindow_length]
  · intro h
    rw [getMean, if_neg (by omega)]
  · intro h
    rw [getMean, if_pos h, hg.sum_eq]

theorem accumulators_track_resident_window_witness :
    (2 : ℕ) ≤ 3 ∧
    ((runOps 3 (mkProcessor (fun _ => 0) 0 false)
        [Op.add 1 0, Op.add 2 0, Op.reset, Op.add 4 5, Op.add 6 0, Op.add 8 0,
          Op.add 10 0]).sum_
      = (lastWindow 3 (addedValues
          [Op.add 1 0, Op.add 2 0, Op.reset, Op.add 4 5, Op.add 6 0, Op.add 8 0,
            Op.add 10 0])).sum ∧
    (runOps 3 (mkProcessor (fun _ => 0) 0 false)
        [Op.add 1 0, Op.add 2 0, Op.reset, Op.add 4 5, Op.add 6 0, Op.add 8 0,
          Op.add 10 0]).sumSq_
      = ((lastWindow 3 (addedValues
          [Op.add 1 0, Op.add 2 0, Op.reset, Op.add 4 5, Op.add 6 0, Op.add 8 0,
            Op.add 10 0])).map fun x => x * x).sum ∧
    (runOps 3 (mkProcessor (fun _ => 0) 0 false)
        [Op.add 1 0, Op.add 2 0, Op.reset, Op.add 4 5, Op.add 6 0, Op.add 8 0,
          Op.add 10 0]).count_
      = (lastWindow 3 (addedValues
          [Op.add 1 0, Op.add 2 0, Op.reset, Op.add 4 5, Op.add 6 0, Op.add 8 0,
            Op.add 10 0])).length ∧
    ((runOps 3 (mkProcessor (fun _ => 0) 0 false)
        [Op.add 1 0, Op.add 2 0, Op.reset, Op.add 4 5, Op.add 6 0, Op.add 8 0,
          Op.add 10 0]).count_ = 0 →
      getMean (runOps 3 (mkProcessor (fun _ => 0) 0 false)
        [Op.add 1 0, Op.add 2 0, Op.reset, Op.add 4 5, Op.add 6 0, Op.add 8 0,
          Op.add 10 0]) = 0) ∧
    (0 < (runOps 3 (mkProcessor (fun _ => 0) 0 false)
        [Op.add 1 0, Op.add 2 0, Op.reset, Op.add 4 5, Op.add 6 0, Op.add 8 0,
          Op.add 10 0]).count_ →
      getMean (runOps 3 (mkProcessor (fun _ => 0) 0 false)
        [Op.add 1 0, Op.add 2 0, Op.reset, Op.add 4 5, Op.add 6 0, Op.add 8 0,
          Op.add 10 0])
        = (lastWindow 3 (addedValues
            [Op.add 1 0, Op.add 2 0, Op.reset, Op.add 4 5, Op.add 6 0, Op.add 8 0,
              Op.add 10 0])).sum
            / ((runOps 3 (mkProcessor (fun _ => 0) 0 false)
                [Op.add 1 0, Op.add 2 0, Op.reset, Op.add 4 5, Op.add 6 0, Op.add 8 0,
                  Op.add 10 0]).count_ : ℚ))) :=
  ⟨by norm_num,
    accumulators_track_resident_window 3 (by norm_num) (fun _ => 0) 0 false
      [Op.add 1 0, Op.add 2 0, Op.reset, Op.add 4 5, Op.add 6 0, Op.add 8 0, Op.add 10 0]⟩

/-- C2: for every run, `getMin`/`getMax` return the true minimum and
maximum of the currently-resident samples — the last `min |A| N` values
added — whether or not the stale flag has deferred the rescan.  In
particular after `N+1` additions they are the extrema of the last `N`
values only. -/
theorem getMin_getMax_true_extrema (N : ℕ) (hN : 2 ≤ N) (jb : ℕ → ℚ) (jp : ℕ)
    (jf : Bool) (ops : List Op) (hne : addedValues ops ≠ []) :
    isMinOf (getMin (runOps N (mkProcessor jb jp jf) ops)).1
        (lastWindow N (addedValues ops)) ∧
      isMaxOf (getMax (runOps N (mkProcessor jb jp jf) ops)).1
        (lastWindow N (addedValues ops)) := by
  have hg := good_runOps N (by omega) jb jp jf ops
  have hlen : 0 < (addedValues ops).length := List.length_pos.2 hne
  exact ⟨getMin_good N (by omega) _ _ hg hlen, getMax_good N (by omega) _ _ hg hlen⟩

theorem getMin_getMax_true_extrema_witness :
    ((2 : ℕ) ≤ 2 ∧ addedValues [Op.add 5 0, Op.add 1 0, Op.add 3 0] ≠ []) ∧
    (isMinOf (getMin (runOps 2 (mkProcessor (fun _ => 0) 0 false)
          [Op.add 5 0, Op.add 1 0, Op.add 3 0])).1
        (lastWindow 2 (addedValues [Op.add 5 0, Op.add 1 0, Op.add 3 0])) ∧
      isMaxOf (getMax (runOps 2 (mkProcessor (fun _ => 0) 0 false)
          [Op.add 5 0, Op.add 1 0, Op.add 3 0])).1
        (lastWindow 2 (addedValues [Op.add 5 0, Op.add 1 0, Op.add 3 0]))) :=
  ⟨⟨by norm_num, by decide⟩,
    getMin_getMax_true_extrema 2 (by norm_num) (fun _ => 0) 0 false
      [Op.add 5 0, Op.add 1 0, Op.add 3 0] (by decide)⟩
/-- C3: the constructor's initializer list (source lines 96-105) sets the
documented defaults for every listed member — EMA alpha 1/10, derivative
filter alpha 1/5, low-pass alpha 1/10, and zeros elsewhere — but
`derivativePeriodMs_` and `useEmaFilteredValueForDerivation_` are missing
from it, so they keep whatever indeterminate value the storage had (here
exhibited as 7 and `true`): a fresh processor does not have period 0 and
flag false. -/
theorem constructor_defaults_and_uninitialized_members :
    (mkProcessor (fun _ => 0) 7 true).count_ = 0 ∧
    (mkProcessor (fun _ => 0) 7 true).index_ = 0 ∧
    (mkProcessor (fun _ => 0) 7 true).sum_ = 0 ∧
    (mkProcessor (fun _ => 0) 7 true).sumSq_ = 0 ∧
    (mkProcessor (fun _ => 0) 7 true).minVal_ = 0 ∧
    (mkProcessor (fun _ => 0) 7 true).maxVal_ = 0 ∧
    (mkProcessor (fun _ => 0) 7 true).needRecalcMinMax_ = false ∧
    (mkProcessor (fun _ => 0) 7 true).ema_ = 0 ∧
    (mkProcessor (fun _ => 0) 7 true).lastValue_ = 0 ∧
    (mkProcessor (fun _ => 0) 7 true).lastTimeMs_ = 0 ∧
    (mkProcessor (fun _ => 0) 7 true).derivative_ = 0 ∧
    (mkProcessor (fun _ => 0) 7 true).derivativeFiltered_ = 0 ∧
    (mkProcessor (fun _ => 0) 7 true).integrator_ = 0 ∧
    (mkProcessor (fun _ => 0) 7 true).lastIntegrandValue_ = 0 ∧
    (mkProcessor (fun _ => 0) 7 true).alphaEma_ = 1 / 10 ∧
    (mkProcessor (fun _ => 0) 7 true).alphaDerivFilter_ = 1 / 5 ∧
    (mkProcessor (fun _ => 0) 7 true).alphaLowpass_ = 1 / 10 ∧
    (mkProcessor (fun _ => 0) 7 true).derivativePeriodMs_ = 7 ∧
    (mkProcessor (fun _ => 0) 7 true).useEmaFilteredValueForDerivation_ = true := by
  with_unfolding_all decide

/-- Concrete illustration that the low-pass coefficient is dead state: two
runs over the same samples whose only difference is the configured
`alphaLowpass_` (9/10 versus the default 1/10) agree on every state member
other than `alphaLowpass_` itself. -/
theorem lowpass_alpha_unused :
    (runOps 3 (setLowpassAlpha exProc (9 / 10)) [Op.add 5 100, Op.add 7 200]).alphaLowpass_
        = 9 / 10 ∧
    (runOps 3 exProc [Op.add 5 100, Op.add 7 200]).alphaLowpass_ = 1 / 10 ∧
    (runOps 3 (setLowpassAlpha exProc (9 / 10)) [Op.add 5 100, Op.add 7 200]).count_
        = (runOps 3 exProc [Op.add 5 100, Op.add 7 200]).count_ ∧
    (runOps 3 (setLowpassAlpha exProc (9 / 10)) [Op.add 5 100, Op.add 7 200]).index_
        = (runOps 3 exProc [Op.add 5 100, Op.add 7 200]).index_ ∧
    (runOps 3 (setLowpassAlpha exProc (9 / 10)) [Op.add 5 100, Op.add 7 200]).buffer_ 0
        = (runOps 3 exProc [Op.add 5 100, Op.add 7 200]).buffer_ 0 ∧
    (runOps 3 (setLowpassAlpha exProc (9 / 10)) [Op.add 5 100, Op.add 7 200]).buffer_ 1
        = (runOps 3 exProc [Op.add 5 100, Op.add 7 200]).buffer_ 1 ∧
    (runOps 3 (setLowpassAlpha exProc (9 / 10)) [Op.add 5 100, Op.add 7 200]).buffer_ 2
        = (runOps 3 exProc [Op.add 5 100, Op.add 7 200]).buffer_ 2 ∧
    (runOps 3 (setLowpassAlpha exProc (9 / 10)) [Op.add 5 100, Op.add 7 200]).sum_
        = (runOps 3 exProc [Op.add 5 100, Op.add 7 200]).sum_ ∧
    (runOps 3 (setLowpassAlpha exProc (9 / 10)) [Op.add 5 100, Op.add 7 200]).sumSq_
        = (runOps 3 exProc [Op.add 5 100, Op.add 7 200]).sumSq_ ∧
    (runOps 3 (setLowpassAlpha exProc (9 / 10)) [Op.add 5 100, Op.add 7 200]).minVal_
        = (runOps 3 exProc [Op.add 5 100, Op.add 7 200]).minVal_ ∧
    (runOps 3 (setLowpassAlpha exProc (9 / 10)) [Op.add 5 100, Op.add 7 200]).maxVal_
        = (runOps 3 exProc [Op.add 5 100, Op.add 7 200]).maxVal_ ∧
    (runOps 3 (setLowpassAlpha exProc (9 / 10)) [Op.add 5 100, Op.add 7 200]).needRecalcMinMax_
        = (runOps 3 exProc [Op.add 5 100, Op.add 7 200]).needRecalcMinMax_ ∧
    (runOps 3 (setLowpassAlpha exProc (9 / 10)) [Op.add 5 100, Op.add 7 200]).ema_
        = (runOps 3 exProc [Op.add 5 100, Op.add 7 200]).ema_ ∧
    (runOps 3 (setLowpassAlpha exProc (9 / 10)) [Op.add 5 100, Op.add 7 200]).lastValue_
        = (runOps 3 exProc [Op.add 5 100, Op.add 7 200]).lastValue_ ∧
    (runOps 3 (setLowpassAlpha exProc (9 / 10)) [Op.add 5 100, Op.add 7 200]).lastTimeMs_
        = (runOps 3 exProc [Op.add 5 100, Op.add 7 200]).lastTimeMs_ ∧
    (runOps 3 (setLowpassAlpha exProc (9 / 10)) [Op.add 5 100, Op.add 7 200]).derivative_
        = (runOps 3 exProc [Op.add 5 100, Op.add 7 200]).derivative_ ∧
    (runOps 3 (setLowpassAlpha exProc (9 / 10))
        [Op.add 5 100, Op.add 7 200]).derivativeFiltered_
        = (runOps 3 exProc [Op.add 5 100, Op.add 7 200]).derivativeFiltered_ ∧
    (runOps 3 (setLowpassAlpha exProc (9 / 10)) [Op.add 5 100, Op.add 7 200]).integrator_
        = (runOps 3 exProc [Op.add 5 100, Op.add 7 200]).integrator_ ∧
    (runOps 3 (setLowpassAlpha exProc (9 / 10))
        [Op.add 5 100, Op.add 7 200]).lastIntegrandValue_
        = (runOps 3 exProc [Op.add 5 100, Op.add 7 200]).lastIntegrandValue_ := by
  with_unfolding_all decide

/-- C6: the derivative input is narrowed through `int`.  With period 0 and
raw-input mode, adding 1.0 at t=1000 ms then 2.5 at t=2000 ms makes the
code compute `(int)2.5 - 1 = 1` over one second — derivative 1 — while the
natural-precision value `(2.5 - 1.0)/1 = 1.5` differs. -/
theorem derivative_truncates_selected_value :
    (runOps 4 exProc [Op.add 1 1000, Op.add (5 / 2) 2000]).derivative_ = 1 ∧
    ((5 : ℚ) / 2 - 1) / 1 = 3 / 2 ∧
    (runOps 4 exProc [Op.add 1 1000, Op.add (5 / 2) 2000]).derivative_ ≠ 3 / 2 := by
  with_unfolding_all decide

/-- C7 counterexample: with `useEmaFilteredValueForDerivation_` set, the
integral still uses the raw samples.  Samples 100 then 200 one second
apart give EMA 110 after the second add; the claim's selected-signal
trapezoid would be `0.5*(100 + 110)*1 = 105`, but the code accumulates
`0.5*(100 + 200)*1 = 150`. -/
theorem integral_ignores_ema_selection :
    (runOps 4 exProc
        [Op.setIsEmaUseForDerivative true, Op.add 100 1000,
          Op.add 200 2000]).useEmaFilteredValueForDerivation_ = true ∧
    (runOps 4 exProc
        [Op.setIsEmaUseForDerivative true, Op.add 100 1000, Op.add 200 2000]).ema_ = 110 ∧
    (1 : ℚ) / 2 * (100 + 110) * 1 = 105 ∧
    (runOps 4 exProc
        [Op.setIsEmaUseForDerivative true, Op.add 100 1000, Op.add 200 2000]).integrator_
      = 150 ∧
    (runOps 4 exProc
        [Op.setIsEmaUseForDerivative true, Op.add 100 1000, Op.add 200 2000]).integrator_
      ≠ 105 := by
  with_unfolding_all decide

/-- C8 counterexample: on a capacity-2 processor the third gated sample is
the third to reach the rate module, yet `count_` is still 2, so the code
re-seeds the smoothed derivative to the raw derivative (100) instead of
applying the claimed recurrence `0.2*100 + 0.8*0 = 20`. -/
theorem derivative_filter_seeding_follows_count :
    (runOps 2 exProc [Op.add 0 1000, Op.add 0 2000]).derivativeFiltered_ = 0 ∧
    (runOps 2 exProc [Op.add 0 1000, Op.add 0 2000, Op.add 100 3000]).count_ = 2 ∧
    (runOps 2 exProc [Op.add 0 1000, Op.add 0 2000, Op.add 100 3000]).derivative_ = 100 ∧
    (1 : ℚ) / 5 * 100 + (1 - 1 / 5) * 0 = 20 ∧
    (runOps 2 exProc
        [Op.add 0 1000, Op.add 0 2000, Op.add 100 3000]).derivativeFiltered_ = 100 ∧
    (runOps 2 exProc
        [Op.add 0 1000, Op.add 0 2000, Op.add 100 3000]).derivativeFiltered_ ≠ 20 := by
  with_unfolding_all decide

/-- Accumulator values exhibiting the floating-point cancellation pattern
(`sumSq_` below `count_·mean²`, which float32 runs such as adding 10000.0f
and 10000.1f produce): used to show `getVariance` carries no clamp. -/
def cancellationState : State :=
  { buffer_ := fun _ => 0
    count_ := 2
    index_ := 0
    sum_ := 2
    sumSq_ := 1
    minVal_ := 0
    maxVal_ := 0
    needRecalcMinMax_ := false
    ema_ := 0
    lastValue_ := 0
    lastTimeMs_ := 0
    derivativePeriodMs_ := 0
    useEmaFilteredValueForDerivation_ := false
    derivative_ := 0
    derivativeFiltered_ := 0
    integrator_ := 0
    lastIntegrandValue_ := 0
    alphaEma_ := 1 / 10
    alphaDerivFilter_ := 1 / 5
    alphaLowpass_ := 1 / 10 }

/-- C9: `getStdDev` is `sqrtf(getVariance())` with no clamping: the value
handed to the square root is the raw shifted-sum variance, which on a
cancellation-pattern state is -1, strictly negative, and differs from the
clamped value `max 0 _ = 0` the claim describes; `sqrtf` of it is NaN. -/
theorem variance_unclamped_before_sqrt :
    getVariance cancellationState = -1 ∧
    getVariance cancellationState < 0 ∧
    max 0 (getVariance cancellationState) ≠ getVariance cancellationState := by
  with_unfolding_all decide

theorem add_short_interval_skips_rate_module_witness :
    ((1200 : ℕ) = 0 ∨
      (1200 + 2 ^ 32 -
          (runOps 3 exProc [Op.setDerivativePeriodMs 500, Op.add 5 1000]).lastTimeMs_) % 2 ^ 32 ≤
        (runOps 3 exProc [Op.setDerivativePeriodMs 500, Op.add 5 1000]).derivativePeriodMs_) ∧
    ((add 3 (runOps 3 exProc [Op.setDerivativePeriodMs 500, Op.add 5 1000]) 7 1200).derivative_
        = (runOps 3 exProc [Op.setDerivativePeriodMs 500, Op.add 5 1000]).derivative_ ∧
      (add 3 (runOps 3 exProc
          [Op.setDerivativePeriodMs 500, Op.add 5 1000]) 7 1200).derivativeFiltered_
        = (runOps 3 exProc [Op.setDerivativePeriodMs 500, Op.add 5 1000]).derivativeFiltered_ ∧
      (add 3 (runOps 3 exProc [Op.setDerivativePeriodMs 500, Op.add 5 1000]) 7 1200).integrator_
        = (runOps 3 exProc [Op.setDerivativePeriodMs 500, Op.add 5 1000]).integrator_ ∧
      (add 3 (runOps 3 exProc
          [Op.setDerivativePeriodMs 500, Op.add 5 1000]) 7 1200).lastIntegrandValue_
        = (runOps 3 exProc [Op.setDerivativePeriodMs 500, Op.add 5 1000]).lastIntegrandValue_ ∧
      (add 3 (runOps 3 exProc [Op.setDerivativePeriodMs 500, Op.add 5 1000]) 7 1200).lastValue_
        = (runOps 3 exProc [Op.setDerivativePeriodMs 500, Op.add 5 1000]).lastValue_ ∧
      (add 3 (runOps 3 exProc [Op.setDerivativePeriodMs 500, Op.add 5 1000]) 7 1200).lastTimeMs_
        = (runOps 3 exProc [Op.setDerivativePeriodMs 500, Op.add 5 1000]).lastTimeMs_ ∧
      add 3 (runOps 3 exProc [Op.setDerivativePeriodMs 500, Op.add 5 1000]) 7 1200
        = add 3 (runOps 3 exProc [Op.setDerivativePeriodMs 500, Op.add 5 1000]) 7 0) :=
  ⟨Or.inr (by with_unfolding_all decide),
    add_short_interval_skips_rate_module 3
      (runOps 3 exProc [Op.setDerivativePeriodMs 500, Op.add 5 1000]) 7 1200
      (Or.inr (by with_unfolding_all decide))⟩

theorem add_wrapped_timestamp_runs_rate_module_witness :
    ((runOps 3 exProc [Op.add 5 4000000000]).lastTimeMs_ < 2 ^ 32 ∧
      (0 : ℕ) < 1000 ∧
      1000 < (runOps 3 exProc [Op.add 5 4000000000]).lastTimeMs_ ∧
      (runOps 3 exProc [Op.add 5 4000000000]).derivativePeriodMs_ <
        1000 + 2 ^ 32 - (runOps 3 exProc [Op.add 5 4000000000]).lastTimeMs_) ∧
    ((add 3 (runOps 3 exProc [Op.add 5 4000000000]) 7 1000).lastTimeMs_ = 1000 ∧
      (add 3 (runOps 3 exProc [Op.add 5 4000000000]) 7 1000).derivative_ =
        ((ratTrunc (if (runOps 3 exProc
                [Op.add 5 4000000000]).useEmaFilteredValueForDerivation_ then
              (add 3 (runOps 3 exProc [Op.add 5 4000000000]) 7 1000).ema_
            else 7) : ℚ) -
            (runOps 3 exProc [Op.add 5 4000000000]).lastValue_) /
          (((1000 + 2 ^ 32 - (runOps 3 exProc [Op.add 5 4000000000]).lastTimeMs_ : ℕ) : ℚ)
            / 1000)) :=
  ⟨⟨by with_unfolding_all decide, by norm_num, by with_unfolding_all decide,
      by with_unfolding_all decide⟩,
    add_wrapped_timestamp_runs_rate_module 3 (runOps 3 exProc [Op.add 5 4000000000]) 7 1000
      (by with_unfolding_all decide) (by norm_num) (by with_unfolding_all decide)
      (by with_unfolding_all decide)⟩

theorem add_integral_gated_witness :
    ((0 : ℕ) < 2000 ∧
      (runOps 3 exProc [Op.add 1 1000]).derivativePeriodMs_ <
        (2000 + 2 ^ 32 - (runOps 3 exProc [Op.add 1 1000]).lastTimeMs_) % 2 ^ 32) ∧
    ((add 3 (runOps 3 exProc [Op.add 1 1000]) 3 2000).integrator_ =
        (if 1 < (if (runOps 3 exProc [Op.add 1 1000]).count_ = 3 then
              (runOps 3 exProc [Op.add 1 1000]).count_
            else (runOps 3 exProc [Op.add 1 1000]).count_ + 1) then
          (runOps 3 exProc [Op.add 1 1000]).integrator_ +
            1 / 2 * ((runOps 3 exProc [Op.add 1 1000]).lastIntegrandValue_ + 3) *
              ((((2000 + 2 ^ 32 - (runOps 3 exProc [Op.add 1 1000]).lastTimeMs_) % 2 ^ 32 :
                  ℕ) : ℚ) * (1 / 1000))
        else (runOps 3 exProc [Op.add 1 1000]).integrator_) ∧
      (add 3 (runOps 3 exProc [Op.add 1 1000]) 3 2000).lastIntegrandValue_ = 3) :=
  ⟨⟨by norm_num, by with_unfolding_all decide⟩,
    add_integral_gated 3 (runOps 3 exProc [Op.add 1 1000]) 3 2000 (by norm_num)
      (by with_unfolding_all decide)⟩

theorem add_derivative_filter_gated_witness :
    ((0 : ℕ) < 2000 ∧
      (runOps 2 exProc [Op.add 1 1000]).derivativePeriodMs_ <
        (2000 + 2 ^ 32 - (runOps 2 exProc [Op.add 1 1000]).lastTimeMs_) % 2 ^ 32) ∧
    ((add 2 (runOps 2 exProc [Op.add 1 1000]) 3 2000).derivative_ =
        ((ratTrunc (if (runOps 2 exProc [Op.add 1 1000]).useEmaFilteredValueForDerivation_ then
              (add 2 (runOps 2 exProc [Op.add 1 1000]) 3 2000).ema_
            else 3) : ℚ) -
            (runOps 2 exProc [Op.add 1 1000]).lastValue_) /
          ((((2000 + 2 ^ 32 - (runOps 2 exProc [Op.add 1 1000]).lastTimeMs_) % 2 ^ 32 : ℕ) :
              ℚ) * (1 / 1000)) ∧
      (add 2 (runOps 2 exProc [Op.add 1 1000]) 3 2000).derivativeFiltered_ =
        (if (if (runOps 2 exProc [Op.add 1 1000]).count_ = 2 then
              (runOps 2 exProc [Op.add 1 1000]).count_
            else (runOps 2 exProc [Op.add 1 1000]).count_ + 1) ≤ 2 then
          (add 2 (runOps 2 exProc [Op.add 1 1000]) 3 2000).derivative_
        else
          (runOps 2 exProc [Op.add 1 1000]).alphaDerivFilter_ *
              (add 2 (runOps 2 exProc [Op.add 1 1000]) 3 2000).derivative_ +
            (1 - (runOps 2 exProc [Op.add 1 1000]).alphaDerivFilter_) *
              (runOps 2 exProc [Op.add 1 1000]).derivativeFiltered_)) :=
  ⟨⟨by norm_num, by with_unfolding_all decide⟩,
    add_derivative_filter_gated 2 (runOps 2 exProc [Op.add 1 1000]) 3 2000 (by norm_num)
      (by with_unfolding_all decide)⟩

theorem addEvict_setLowpass (N : ℕ) (st : State) (a : ℚ) :
    addEvict N (setLowpassAlpha st a) = setLowpassAlpha (addEvict N st) a := by
  simp only [addEvict, setLowpassAlpha]
  split_ifs <;> rfl

theorem addStore_setLowpass (st : State) (a v : ℚ) :
    addStore (setLowpassAlpha st a) v = setLowpassAlpha (addStore st v) a := rfl

theorem addMinMax_setLowpass (st : State) (a v : ℚ) :
    addMinMax (setLowpassAlpha st a) v = setLowpassAlpha (addMinMax st v) a := by
  simp only [addMinMax, setLowpassAlpha]
  split_ifs <;> rfl

theorem addEma_setLowpass (st : State) (a v : ℚ) :
    addEma (setLowpassAlpha st a) v = setLowpassAlpha (addEma st v) a := by
  simp only [addEma, setLowpassAlpha]
  split_ifs <;> rfl

theorem addRate_setLowpass (st : State) (a v : ℚ) (t : ℕ) :
    addRate (setLowpassAlpha st a) v t = setLowpassAlpha (addRate st v t) a := by
  simp only [addRate, setLowpassAlpha]
  split_ifs <;> rfl

theorem addIndex_setLowpass (N : ℕ) (st : State) (a : ℚ) :
    addIndex N (setLowpassAlpha st a) = setLowpassAlpha (addIndex N st) a := rfl

/-- C4: `alphaLowpass_` is dead state.  Configuring the low-pass
coefficient commutes with `add` — so it influences no state member other
than itself — and no query reads it; there is no low-pass output anywhere
in the class, only the stored (clamped) coefficient. -/
theorem lowpass_alpha_unused_general (N : ℕ) (st : State) (a v : ℚ) (t : ℕ) :
    add N (setLowpassAlpha st a) v t = setLowpassAlpha (add N st v t) a ∧
    (getMin (setLowpassAlpha st a)).1 = (getMin st).1 ∧
    (getMax (setLowpassAlpha st a)).1 = (getMax st).1 ∧
    getMean (setLowpassAlpha st a) = getMean st ∧
    getVariance (setLowpassAlpha st a) = getVariance st ∧
    getEma (setLowpassAlpha st a) = getEma st ∧
    getDerivative (setLowpassAlpha st a) = getDerivative st ∧
    getDerivativeFiltered (setLowpassAlpha st a) = getDerivativeFiltered st ∧
    getIntegral (setLowpassAlpha st a) = getIntegral st ∧
    (setLowpassAlpha st a).alphaLowpass_ = clampAlpha a := by
  refine ⟨?_, ?_, ?_, rfl, rfl, rfl, rfl, rfl, rfl, rfl⟩
  · rw [add, add, addEvict_setLowpass, addStore_setLowpass, addMinMax_setLowpass,
      addEma_setLowpass, addRate_setLowpass, addIndex_setLowpass]
  · simp only [getMin, setLowpassAlpha, recalculateMinMax]
    split_ifs <;> rfl
  · simp only [getMax, setLowpassAlpha, recalculateMinMax]
    split_ifs <;> rfl

end SignalProcessor
